import Mathlib

/-!
Verification of the Manager/Client Telegram-bot core against its source.

The shared Google-Sheets worksheet is modelled as a list of rows, each row a
list of cell strings (row 1 is the header row; rows and columns are 1-indexed
as in the source). Python dictionaries are modelled as insertion-ordered
association lists, matching CPython semantics: assignment to an existing key
keeps its position, a new key is appended at the end, and iteration order is
insertion order (so the first element is the oldest entry).

Time (`datetime.now()`, `timedelta(minutes=·)`) is modelled as an integer
number of minutes.
-/

set_option autoImplicit false

namespace Bots

/-- Python-dict lookup `d.get(k)`: first (and by key-uniqueness only) entry with key `k`. -/
def dictGet {α : Type} (d : List (String × α)) (k : String) : Option α :=
  match d with
  | [] => none
  | (k1, v1) :: rest => if k1 = k then some v1 else dictGet rest k

/-- Python-dict assignment `d[k] = v`: update in place if the key exists,
otherwise append at the end (CPython insertion order). -/
def dictSet {α : Type} (d : List (String × α)) (k : String) (v : α) : List (String × α) :=
  match d with
  | [] => [(k, v)]
  | (k1, v1) :: rest => if k1 = k then (k, v) :: rest else (k1, v1) :: dictSet rest k v

/-- Python-dict `d.pop(k, None)`: drop the entry with key `k`, if present. -/
def dictPop {α : Type} (d : List (String × α)) (k : String) : List (String × α) :=
  match d with
  | [] => []
  | (k1, v1) :: rest => if k1 = k then rest else (k1, v1) :: dictPop rest k

theorem dictGet_dictSet_self {α : Type} (d : List (String × α)) (k : String) (v : α) :
    dictGet (dictSet d k v) k = some v := by
  induction d with
  | nil => simp [dictSet, dictGet]
  | cons p rest ih =>
    obtain ⟨k1, v1⟩ := p
    by_cases h : k1 = k
    · simp [dictSet, h, dictGet]
    · simp [dictSet, h, dictGet, ih]

theorem dictGet_dictSet_ne {α : Type} (d : List (String × α)) (k k' : String) (v : α)
    (h : k' ≠ k) : dictGet (dictSet d k v) k' = dictGet d k' := by
  induction d with
  | nil => simp [dictSet, dictGet, Ne.symm h]
  | cons p rest ih =>
    obtain ⟨k1, v1⟩ := p
    by_cases h1 : k1 = k
    · subst h1
      simp [dictSet, dictGet, Ne.symm h, ih]
    · simp only [dictSet, if_neg h1, dictGet]
      by_cases h2 : k1 = k'
      · simp [h2]
      · simp [h2, ih]

theorem dictGet_dictPop_self {α : Type} (d : List (String × α)) (k : String)
    (hd : (d.map Prod.fst).Nodup) : dictGet (dictPop d k) k = none := by
  induction d with
  | nil => simp [dictPop, dictGet]
  | cons p rest ih =>
    obtain ⟨k1, v1⟩ := p
    simp only [List.map_cons, List.nodup_cons] at hd
    by_cases h : k1 = k
    · subst h
      rw [dictPop, if_pos rfl]
      clear ih
      induction rest with
      | nil => simp [dictGet]
      | cons q rest2 ih2 =>
        obtain ⟨k2, v2⟩ := q
        simp only [List.map_cons, List.mem_cons, List.nodup_cons] at hd
        rw [dictGet, if_neg (fun he => hd.1 (Or.inl he.symm))]
        exact ih2 ⟨fun hm => hd.1 (Or.inr hm), hd.2.2⟩
    · rw [dictPop, if_neg h, dictGet, if_neg h]
      exact ih hd.2

theorem dictGet_dictPop_ne {α : Type} (d : List (String × α)) (k k' : String)
    (h : k' ≠ k) : dictGet (dictPop d k) k' = dictGet d k' := by
  induction d with
  | nil => simp [dictPop]
  | cons p rest ih =>
    obtain ⟨k1, v1⟩ := p
    by_cases h1 : k1 = k
    · subst h1
      simp [dictPop, dictGet, Ne.symm h]
    · simp only [dictPop, if_neg h1, dictGet]
      by_cases h2 : k1 = k'
      · simp [h2]
      · simp [h2, ih]

theorem length_dictSet_of_mem {α : Type} (d : List (String × α)) (k : String) (v : α)
    (h : (dictGet d k).isSome) : (dictSet d k v).length = d.length := by
  induction d with
  | nil => simp [dictGet] at h
  | cons p rest ih =>
    obtain ⟨k1, v1⟩ := p
    by_cases h1 : k1 = k
    · simp [dictSet, h1]
    · rw [dictGet, if_neg h1] at h
      simp [dictSet, h1, ih h]

theorem length_dictSet_of_not_mem {α : Type} (d : List (String × α)) (k : String) (v : α)
    (h : dictGet d k = none) : (dictSet d k v).length = d.length + 1 := by
  induction d with
  | nil => simp [dictSet]
  | cons p rest ih =>
    obtain ⟨k1, v1⟩ := p
    by_cases h1 : k1 = k
    · subst h1
      simp [dictGet] at h
    · rw [dictGet, if_neg h1] at h
      simp [dictSet, h1, ih h]

theorem keys_dictSet_of_mem {α : Type} (d : List (String × α)) (k : String) (v : α)
    (h : (dictGet d k).isSome) : (dictSet d k v).map Prod.fst = d.map Prod.fst := by
  induction d with
  | nil => simp [dictGet] at h
  | cons p rest ih =>
    obtain ⟨k1, v1⟩ := p
    by_cases h1 : k1 = k
    · simp [dictSet, h1]
    · rw [dictGet, if_neg h1] at h
      simp [dictSet, h1, ih h]

theorem dictGet_eq_none_of_not_mem_keys {α : Type} (d : List (String × α)) (k : String)
    (h : k ∉ d.map Prod.fst) : dictGet d k = none := by
  induction d with
  | nil => simp [dictGet]
  | cons p rest ih =>
    obtain ⟨k1, v1⟩ := p
    simp only [List.map_cons, List.mem_cons] at h
    push_neg at h
    rw [dictGet, if_neg (fun he => h.1 he.symm)]
    exact ih h.2

/-- One worksheet: rows of cell strings; row 1 is the header row. -/
abbrev Sheet := List (List String)

/-- Read a single cell (1-indexed row and column); an absent cell reads as `""`,
matching `acell(...).value or ""` and the padding done by the record readers. -/
def getCell (s : Sheet) (row col : Nat) : String :=
  (s.getD (row - 1) []).getD (col - 1) ""

/-- Pad a row with empty cells up to length `n`. -/
def padTo (l : List String) (n : Nat) : List String :=
  l ++ List.replicate (n - l.length) ""

/-- Write a single cell (1-indexed), extending the row with empty cells if it is
shorter than the written column; a write to a row outside the sheet is a no-op
(such writes are never issued by the modelled code paths). -/
def setCell (s : Sheet) (row col : Nat) (v : String) : Sheet :=
  s.set (row - 1) (List.set (padTo (s.getD (row - 1) []) col) (col - 1) v)

theorem length_setCell (s : Sheet) (row col : Nat) (v : String) :
    (setCell s row col v).length = s.length := by
  simp [setCell]

theorem getD_padTo (l : List String) (n i : Nat) : (padTo l n).getD i "" = l.getD i "" := by
  rw [List.getD_eq_getElem?_getD, List.getD_eq_getElem?_getD]
  unfold padTo
  rcases lt_or_le i l.length with h | h
  · rw [List.getElem?_append_left h]
  · rw [List.getElem?_append_right h, List.getElem?_eq_none h, List.getElem?_replicate]
    by_cases h2 : i - l.length < n - l.length <;> simp [h2]

theorem length_padTo (l : List String) (n : Nat) : (padTo l n).length = max l.length n := by
  simp [padTo]
  omega

theorem getD_set_self {α : Type} (l : List α) (i : Nat) (a d : α) (h : i < l.length) :
    (l.set i a).getD i d = a := by
  simp [List.getD_eq_getElem?_getD, List.getElem?_set_self', List.getElem?_eq_getElem h]

theorem getD_set_ne {α : Type} (l : List α) (i j : Nat) (a d : α) (h : i ≠ j) :
    (l.set i a).getD j d = l.getD j d := by
  simp [List.getD_eq_getElem?_getD, List.getElem?_set_ne h]

theorem getCell_setCell_self (s : Sheet) (row col : Nat) (v : String)
    (hrow : row - 1 < s.length) (hcol : 1 ≤ col) :
    getCell (setCell s row col v) row col = v := by
  have hlen : col - 1 < (padTo (s.getD (row - 1) []) col).length := by
    rw [length_padTo]; omega
  unfold getCell setCell
  rw [getD_set_self _ _ _ _ hrow, getD_set_self _ _ _ _ hlen]

theorem getCell_setCell_ne_col (s : Sheet) (row col col' : Nat) (v : String)
    (h : col' - 1 ≠ col - 1) :
    getCell (setCell s row col v) row col' = getCell s row col' := by
  unfold getCell setCell
  rcases lt_or_le (row - 1) s.length with hrow | hrow
  · rw [getD_set_self _ _ _ _ hrow, getD_set_ne _ _ _ _ _ (Ne.symm h), getD_padTo]
  · rw [List.set_eq_of_length_le hrow]

theorem getCell_setCell_ne_row (s : Sheet) (row row' col col' : Nat) (v : String)
    (h : row' - 1 ≠ row - 1) :
    getCell (setCell s row col v) row' col' = getCell s row' col' := by
  unfold getCell setCell
  rw [getD_set_ne _ _ _ _ _ (Ne.symm h)]

theorem getD_setCell_ne_nil (s : Sheet) (row col : Nat) (v : String)
    (hrow : row - 1 < s.length) (hcol : 1 ≤ col) :
    (setCell s row col v).getD (row - 1) [] ≠ [] := by
  unfold setCell
  rw [getD_set_self _ _ _ _ hrow]
  intro hcon
  have h2 : (List.set (padTo (s.getD (row - 1) []) col) (col - 1) v).length = 0 := by
    rw [hcon]; rfl
  rw [List.length_set, length_padTo] at h2
  omega

/-- Python `str.strip()` (whitespace at both ends; ASCII whitespace modelled). -/
def pyStrip (s : String) : String :=
  String.mk (((s.data.dropWhile Char.isWhitespace).reverse.dropWhile Char.isWhitespace).reverse)

/-- Python `str.lower()` (ASCII case mapping modelled). -/
def pyLower (s : String) : String :=
  String.mk (s.data.map Char.toLower)

/-- Python `str.lstrip('@')`. -/
def pyLStripAt (s : String) : String :=
  String.mk (s.data.dropWhile (fun c => c = '@'))

/-- `username.strip().lstrip('@').lower()`, the normalization applied to both the
query and every stored `Username` cell in `find_user_by_username`. -/
def cleanUsername (u : String) : String :=
  pyLower (pyLStripAt (pyStrip u))

/-- A row as the Python code sees it: a header-to-cell-value dictionary plus the
synthetic integer key `row_number`. -/
structure Record where
  fields : List (String × String)
  row_number : Nat
deriving DecidableEq

/-- `record.get(h, "")`. -/
def Record.get (r : Record) (h : String) : String :=
  (dictGet r.fields h).getD ""

/-- `record[h] = v`. -/
def Record.set (r : Record) (h v : String) : Record :=
  { r with fields := dictSet r.fields h v }

/-- The fixed 16-column schema, identical in Manager.py and Client.py. -/
def HEADERS : List (String × Nat) :=
  [("Submission_ID", 1), ("Respondent_ID", 2), ("Submitted_at", 3), ("Name", 4),
   ("Student_Number", 5), ("Major", 6), ("Email", 7), ("Info", 8), ("Committee", 9),
   ("Group_Link", 10), ("Username", 11), ("Telegram_ID", 12), ("Password", 13),
   ("Signature", 14), ("Status", 15), ("Logged_In", 16)]

/-- Column number of a header (`HEADERS[h]`). -/
def headerCol (h : String) : Nat :=
  (dictGet HEADERS h).getD 0

/-- gspread `worksheet.col_values(col)`: the column as a list, one entry per row.
(The live API drops trailing all-empty cells; that trimming only shortens scans
over empty cells and is not modelled.) -/
def col_values (s : Sheet) (col : Nat) : List String :=
  s.map (fun row => row.getD (col - 1) "")

namespace Client

/-- The client-side cache: `GoogleSheetsClient._user_cache` together with its
`_cache_enabled` / `_max_cache_size` configuration. -/
structure Cache where
  enabled : Bool
  max_cache_size : Nat
  entries : List (String × Record)
deriving DecidableEq

/-- `GoogleSheetsClient._get_from_cache`. -/
def get_from_cache (c : Cache) (telegram_id : String) : Option Record :=
  if ¬c.enabled ∨ telegram_id = "" then none
  else dictGet c.entries ("tg_" ++ telegram_id)

/-- `GoogleSheetsClient._set_cache`: if at capacity and the key is new, the first
(= oldest-inserted) entry is dropped before inserting. (With capacity 0 and an
empty cache the Python `next(iter(...))` would raise `StopIteration`; the claims
are settled for capacity ≥ 1, where that branch is unreachable.) -/
def set_cache (c : Cache) (telegram_id : String) (record : Record) : Cache :=
  if ¬c.enabled ∨ telegram_id = "" then c
  else
    let key := "tg_" ++ telegram_id
    let entries1 :=
      if dictGet c.entries key = none ∧ c.max_cache_size ≤ c.entries.length then
        c.entries.tail
      else c.entries
    { c with entries := dictSet entries1 key record }

/-- `GoogleSheetsClient.get_record_by_row` on a successful read: one dict entry per
header (missing trailing cells read as `""`, values NOT stripped on this side),
plus `row_number`. -/
def get_record_by_row (s : Sheet) (row : Nat) : Record :=
  let values := s.getD (row - 1) []
  { fields := HEADERS.map (fun p => (p.1, values.getD (p.2 - 1) "")), row_number := row }

/-- `get_record_by_row` with the raw-read outcome explicit (`errs` lists the
outcomes of successive raw store calls, `true` = the call raises): the
except-branch swallows the error and returns the empty dict (modelled `none`).
Exactly one store-call outcome is consulted — no retry. -/
def get_record_by_row_io (errs : List Bool) (s : Sheet) (row : Nat) :
    Except Unit (Option Record) :=
  if errs.headD false then Except.ok none
  else Except.ok (some (get_record_by_row s row))

/-- `GoogleSheetsClient.update_user_fields` on a successful batch write: write each
field cell, apply the same updates to a copy of the record, write-through the
cache under the caller's telegram_id. -/
def update_user_fields (s : Sheet) (cache : Cache) (record : Record)
    (fields : List (String × String)) (telegram_id : String) : Sheet × Record × Cache :=
  let row := record.row_number
  let s1 := fields.foldl (fun acc f => setCell acc row (headerCol f.1) f.2) s
  let updated_record := fields.foldl (fun r f => Record.set r f.1 f.2) record
  (s1, updated_record, set_cache cache telegram_id updated_record)

/-- `update_user_fields` with the `batch_update` outcome explicit: the
except-branch swallows the error and returns the original record, leaving store
and cache untouched. Never raises; consults exactly one store-call outcome. -/
def update_user_fields_io (errs : List Bool) (s : Sheet) (cache : Cache)
    (record : Record) (fields : List (String × String)) (telegram_id : String) :
    Except Unit (Sheet × Record × Cache) :=
  if errs.headD false then Except.ok (s, record, cache)
  else Except.ok (update_user_fields s cache record fields telegram_id)

/-- The scan loop of `find_user_by_username`: `enumerate(usernames[1:], start=2)`,
first normalized match wins; the found record is cached under the caller's
telegram_id. -/
def scan_usernames (s : Sheet) (cache : Cache) (telegram_id search : String) :
    Nat → List String → Option Record × Cache
  | _, [] => (none, cache)
  | i, stored_username :: rest =>
    if cleanUsername stored_username = search then
      let record := get_record_by_row s i
      (some record, set_cache cache telegram_id record)
    else scan_usernames s cache telegram_id search (i + 1) rest

/-- `GoogleSheetsClient.find_user_by_username` (successful I/O). Note the cache
probe by `telegram_id` sits between the empty-username guard and the scan. -/
def find_user_by_username (s : Sheet) (cache : Cache) (username telegram_id : String) :
    Option Record × Cache :=
  if username = "" then (none, cache)
  else
    let search := cleanUsername username
    match get_from_cache cache telegram_id with
    | some cached => (some cached, cache)
    | none => scan_usernames s cache telegram_id search 2 ((col_values s 11).drop 1)

/-- `GoogleSheetsClient.find_user_by_telegram_id` with the raw column-read
outcome explicit (`errs` head = outcome of the one store call made when the
cache misses; `true` = it raises). The query id is `str(...).strip()`-ed, a
cache hit short-circuits before any store I/O, and both except-branches
(`CellNotFound` and the generic one) swallow the error and return `None` with
the cache untouched. Never raises; no retry. A failure inside the nested
`get_record_by_row` is that function's own concern (see
`get_record_by_row_io`) and is not re-modelled here. -/
def find_user_by_telegram_id_io (errs : List Bool) (s : Sheet) (cache : Cache)
    (telegram_id : String) : Except Unit (Option Record × Cache) :=
  let tid := pyStrip telegram_id
  match get_from_cache cache tid with
  | some cached => Except.ok (some cached, cache)
  | none =>
    if errs.headD false then Except.ok (none, cache)
    else
      let cols := col_values s 12
      if tid ∈ cols then
        let row_number := cols.indexOf tid + 1
        let record := get_record_by_row s row_number
        Except.ok (some record, set_cache cache tid record)
      else Except.ok (none, cache)

/-- `GoogleSheetsClient.find_user_by_username` with the raw column-read outcome
explicit: the empty-username guard and the cache probe precede the `try`; on a
failing store call the except-branch logs, swallows, and returns `None` with
the cache untouched. Never raises; no retry. `find_user_by_username` above is
this function's successful-I/O instance. -/
def find_user_by_username_io (errs : List Bool) (s : Sheet) (cache : Cache)
    (username telegram_id : String) : Except Unit (Option Record × Cache) :=
  if username = "" then Except.ok (none, cache)
  else
    let search := cleanUsername username
    match get_from_cache cache telegram_id with
    | some cached => Except.ok (some cached, cache)
    | none =>
      if errs.headD false then Except.ok (none, cache)
      else Except.ok (scan_usernames s cache telegram_id search 2 ((col_values s 11).drop 1))

/-- The scan as claim C10 words it: walk the data rows in row order from row 2
and return the record of the first row whose normalized stored username equals
the normalized query. -/
def claim_scan (s : Sheet) (search : String) : Nat → List String → Option Record
  | _, [] => none
  | i, stored_username :: rest =>
    if cleanUsername stored_username = search then some (get_record_by_row s i)
    else claim_scan s search (i + 1) rest

/-- The lookup as claim C10 words it — empty query short-circuits to `none`, a
pure normalization-insensitive first-match scan otherwise, with no cache
involved — for comparison with `find_user_by_username`. -/
def find_user_by_username_claim (s : Sheet) (username : String) : Option Record :=
  if username = "" then none
  else claim_scan s (cleanUsername username) 2 ((col_values s 11).drop 1)

/-- `GoogleSheetsClient.hash_password`: the SHA-256 hex digest of the password's
UTF-8 encoding. The digest is a parameter of the embedding: the modelled control
flow depends only on it being a fixed deterministic function of the password
string, applied identically to both comparison sides. -/
def hash_password (sha256_hexdigest : String → String) (password : String) : String :=
  sha256_hexdigest password

/-- `ClientBot._is_user_logged_in`. -/
def is_user_logged_in (record : Record) : Bool :=
  let logged_in := pyLower (pyStrip (record.get "Logged_In"))
  (logged_in == "yes") || (logged_in == "y") || (logged_in == "true") || (logged_in == "1")

/-- `ClientBot.user_attempts` values: `{'count', 'first_attempt', 'banned_until'}`. -/
structure AttemptInfo where
  count : Nat
  first_attempt : Int
  banned_until : Option Int
deriving DecidableEq

abbrev Attempts := List (String × AttemptInfo)

/-- `ClientBot._is_user_banned`; also returns the possibly-mutated map (an
expired ban's record is popped on the spot). -/
def is_user_banned (now : Int) (attempts : Attempts) (telegram_id : String) :
    (Bool × Option Int) × Attempts :=
  match dictGet attempts telegram_id with
  | none => ((false, none), attempts)
  | some attempt_info =>
    match attempt_info.banned_until with
    | some banned_until =>
      if now < banned_until then ((true, some banned_until), attempts)
      else ((false, none), dictPop attempts telegram_id)
    | none => ((false, none), attempts)

/-- `ClientBot._record_failed_attempt`. -/
def record_failed_attempt (max_unknown_attempts : Nat) (unknown_ban_minutes : Int)
    (now : Int) (attempts : Attempts) (telegram_id : String) : Attempts :=
  let attempts1 :=
    match dictGet attempts telegram_id with
    | none => dictSet attempts telegram_id ⟨1, now, none⟩
    | some info => dictSet attempts telegram_id { info with count := info.count + 1 }
  match dictGet attempts1 telegram_id with
  | none => attempts1
  | some attempt_info =>
    if max_unknown_attempts ≤ attempt_info.count then
      dictSet attempts1 telegram_id
        { attempt_info with banned_until := some (now + unknown_ban_minutes) }
    else attempts1

abbrev RequestLog := List (String × List Int)

/-- `ClientBot._check_logged_user_rate_limit`: `true` = the request is rejected. -/
def check_logged_user_rate_limit (max_logged_requests : Nat) (logged_limit_minutes : Int)
    (now : Int) (reqs : RequestLog) (telegram_id : String) : Bool × RequestLog :=
  let requests := (dictGet reqs telegram_id).getD []
  let recent_requests := requests.filter (fun req => now - req < logged_limit_minutes)
  let reqs1 := dictSet reqs telegram_id recent_requests
  if max_logged_requests ≤ recent_requests.length then (true, reqs1)
  else (false, dictSet reqs1 telegram_id (recent_requests ++ [now]))

/-- The user-visible outcome of the status projection: which message template is
rendered, with which parameters (the templates themselves are localized
configuration text with no logic). -/
inductive Reply
| acceptedMsg (name committee group_link team_link : String)
| rejectedMsg (name committee : String)
| pendingMsg (name : String)
deriving DecidableEq

/-- `ClientBot.send_accepted`: the group-link line is rendered iff the stripped
`Group_Link` is non-empty; the `Reply` carries that stripped link. -/
def send_accepted (team_link : String) (record : Record) : Reply :=
  Reply.acceptedMsg (record.get "Name") (record.get "Committee")
    (pyStrip (record.get "Group_Link")) team_link

/-- `ClientBot.send_rejected`. -/
def send_rejected (record : Record) : Reply :=
  Reply.rejectedMsg (record.get "Name") (record.get "Committee")

/-- `ClientBot.send_pending`. -/
def send_pending (record : Record) : Reply :=
  Reply.pendingMsg (record.get "Name")

structure ShowStatusResult where
  reply : Reply
  user_record : Record
  cache : Cache
deriving DecidableEq

/-- `ClientBot.show_status` (successful cell re-reads; an I/O failure inside the
re-read block would be swallowed, leaving the cached record in place). -/
def show_status (team_link : String) (s : Sheet) (cache : Cache) (telegram_id : String)
    (record : Record) : ShowStatusResult :=
  let current_status := pyLower (pyStrip (record.get "Status"))
  if current_status = "accepted" then ⟨send_accepted team_link record, record, cache⟩
  else if current_status = "rejected" then ⟨send_rejected record, record, cache⟩
  else
    let row := record.row_number
    let current_status_value := getCell s row (headerCol "Status")
    let (record1, cache1) :=
      if pyLower (pyStrip current_status_value) ≠ current_status then
        let current_group_link := getCell s row (headerCol "Group_Link")
        let r1 := (record.set "Status" current_status_value).set "Group_Link" current_group_link
        (r1, set_cache cache telegram_id r1)
      else (record, cache)
    let status := pyLower (pyStrip (record1.get "Status"))
    if status = "accepted" then ⟨send_accepted team_link record1, record1, cache1⟩
    else if status = "rejected" then ⟨send_rejected record1, record1, cache1⟩
    else ⟨send_pending record1, record1, cache1⟩

inductive PasswordStep
| sessionExpired
| wrongPassword
| statusShown (r : Reply)
deriving DecidableEq

structure PasswordResult where
  step : PasswordStep
  sheet : Sheet
  cache : Cache
  user_record : Option Record
deriving DecidableEq

/-- `ClientBot.handle_password` (successful store I/O), over the digest
parameter. `wrongPassword` corresponds to returning `WAITING_PASSWORD` (the
conversation stays in the awaiting-password state). -/
def handle_password (sha256_hexdigest : String → String) (team_link : String)
    (text : String) (s : Sheet) (cache : Cache) (user_record : Option Record)
    (telegram_id : String) : PasswordResult :=
  let password := pyStrip text
  match user_record with
  | none => ⟨.sessionExpired, s, cache, none⟩
  | some record =>
    let hashed_input := hash_password sha256_hexdigest password
    let stored_password_plain := pyStrip (record.get "Password")
    let stored_password_hashed := hash_password sha256_hexdigest stored_password_plain
    if stored_password_hashed ≠ hashed_input then ⟨.wrongPassword, s, cache, some record⟩
    else
      let (s1, record1, cache1) :=
        update_user_fields s cache record [("Logged_In", "Yes")] telegram_id
      let shown := show_status team_link s1 cache1 telegram_id record1
      ⟨.statusShown shown.reply, s1, shown.cache, some shown.user_record⟩

inductive StartOutcome
| bannedReply (banned_until : Int)
| userNotFound
| rateLimited
| statusShown
| askPassword
deriving DecidableEq

/-- The rate/ban bookkeeping of `ClientBot.start_command` (Client.py 293-346).
The record-store lookup chain (`find_user_by_telegram_id`, then
`find_user_by_username` with a one-time `Telegram_ID` back-fill) is abstracted
to its result `found`; the claims settled on this function concern only the
attempt/ban/window bookkeeping around that lookup. -/
def start_command (max_unknown_attempts : Nat) (unknown_ban_minutes : Int)
    (max_logged_requests : Nat) (logged_limit_minutes : Int) (now : Int)
    (telegram_id : String) (found : Option Record)
    (user_attempts : Attempts) (logged_user_requests : RequestLog) :
    StartOutcome × Attempts × RequestLog :=
  let banRead := is_user_banned now user_attempts telegram_id
  let attempts1 := banRead.2
  if banRead.1.1 then
    (.bannedReply (banRead.1.2.getD 0), attempts1, logged_user_requests)
  else
    match found with
    | none =>
      (.userNotFound,
       record_failed_attempt max_unknown_attempts unknown_ban_minutes now attempts1 telegram_id,
       logged_user_requests)
    | some record =>
      let attempts2 := dictPop attempts1 telegram_id
      if is_user_logged_in record then
        let rateRead :=
          check_logged_user_rate_limit max_logged_requests logged_limit_minutes now
            logged_user_requests telegram_id
        if rateRead.1 then (.rateLimited, attempts2, rateRead.2)
        else (.statusShown, attempts2, rateRead.2)
      else (.askPassword, attempts2, logged_user_requests)

end Client

namespace Manager

/-- `OptimizedGoogleSheetsManager.get_record_by_row` on a successful read: every
cell value stripped; the empty dict (modelled `none`) when the row reads back
empty. -/
def get_record_by_row (s : Sheet) (row_number : Nat) : Option Record :=
  let values := s.getD (row_number - 1) []
  if values = [] then none
  else some { fields := HEADERS.map (fun p => (p.1, pyStrip (values.getD (p.2 - 1) ""))),
              row_number := row_number }

/-- `get_record_by_row` with the raw-read outcome explicit: the except-branch
swallows the error and returns the empty dict. Never raises; no retry. -/
def get_record_by_row_io (errs : List Bool) (s : Sheet) (row_number : Nat) :
    Except Unit (Option Record) :=
  if errs.headD false then Except.ok none
  else Except.ok (get_record_by_row s row_number)

/-- The selection loop of `get_pending_records`:
`enumerate(all_values[1:], start=2)`, keeping rows whose stripped status is `""`
or case-insensitively `"pending"`. -/
def pending_from : Nat → List (List String) → List Record
  | _, [] => []
  | i, row :: rest =>
    let record : Record :=
      { fields := HEADERS.map (fun p => (p.1, pyStrip (row.getD (p.2 - 1) ""))),
        row_number := i }
    let status := pyStrip (record.get "Status")
    if status = "" ∨ pyLower status = "pending" then record :: pending_from (i + 1) rest
    else pending_from (i + 1) rest

/-- `OptimizedGoogleSheetsManager.get_pending_records` (successful read). -/
def get_pending_records (s : Sheet) : List Record :=
  if s.length < 2 then [] else pending_from 2 (s.drop 1)

/-- `get_pending_records` with the raw-read outcome explicit: the except-branch
swallows the error and returns the empty list. Never raises; no retry. -/
def get_pending_records_io (errs : List Bool) (s : Sheet) : Except Unit (List Record) :=
  if errs.headD false then Except.ok [] else Except.ok (get_pending_records s)

/-- The cell writes of a successful `update_status_and_group_link`: the status
cell, then — when `group_link` is truthy, i.e. neither `None` nor `""` — the
group-link cell, issued as one batch. -/
def apply_status_update (s : Sheet) (row_number : Nat) (status : String)
    (group_link : Option String) : Sheet :=
  let s1 := setCell s row_number (headerCol "Status") status
  if group_link.getD "" = "" then s1
  else setCell s1 row_number (headerCol "Group_Link") (group_link.getD "")

/-- `OptimizedGoogleSheetsManager.update_status_and_group_link`: unlike every
read operation, its except-branch logs and then re-raises, so a failing write
propagates to the caller (`errs` head = outcome of the single underlying
`batch_update` call; no retry). -/
def update_status_and_group_link (errs : List Bool) (s : Sheet) (row_number : Nat)
    (status : String) (group_link : Option String) : Except Unit Sheet :=
  if errs.headD false then Except.error ()
  else Except.ok (apply_status_update s row_number status group_link)

/-- `ManagerBot._is_user_logged_in`. -/
def is_user_logged_in (record : Record) : Bool :=
  let logged_in := pyLower (pyStrip (record.get "Logged_In"))
  (logged_in == "yes") || (logged_in == "y") || (logged_in == "true") || (logged_in == "1")

/-- `ManagerBot.send_request_for_review`: delivery is attempted to every admin
id independently; `admin_results` gives each attempt's outcome; the function
returns `sent_to_all` (false as soon as any one delivery failed). Message
formatting and the signature-image download do not affect this value. -/
def send_request_for_review (admin_results : List Bool) (record : Record) : Bool :=
  if record.row_number = 0 then false else admin_results.all id

structure SweepResult where
  sheet : Sheet
  success_count : Nat
  failed_count : Nat
deriving DecidableEq

/-- The body of the dispatch loop of `ManagerBot.check_command`: dispatch one
pending record to the reviewers; on `sent` mark its row `"Pending"` in the
store, else count the failure. -/
def check_step (deliveries : Nat → List Bool) (acc : SweepResult) (record : Record) :
    SweepResult :=
  if send_request_for_review (deliveries record.row_number) record then
    { acc with
      sheet := apply_status_update acc.sheet record.row_number "Pending" none,
      success_count := acc.success_count + 1 }
  else { acc with failed_count := acc.failed_count + 1 }

/-- The dispatch loop of `ManagerBot.check_command`: one pass over the pending
records selected from the initial sheet. `deliveries` gives, per row number,
the per-admin delivery outcomes of that row's dispatch. -/
def check_command (deliveries : Nat → List Bool) (s : Sheet) : SweepResult :=
  (get_pending_records s).foldl (check_step deliveries) ⟨s, 0, 0⟩

inductive DecisionOutcome
| alreadyProcessed
| recordNotFound
| alreadyResolved (status : String)
| decided (accepted : Bool) (notification_sent : Option Bool)
| genericError
deriving DecidableEq

/-- The reviewer process's mutable state: the shared sheet plus the process-local
`processed_records` set (modelled as a duplicate-free list). -/
structure MgrState where
  sheet : Sheet
  processed_records : List Nat
deriving DecidableEq

/-- `ManagerBot.handle_decision` for an authorized reviewer and a well-formed
`{action}_{row}` callback token, given as its parsed `action` and `row_number`.
`wfail` is the outcome of the single underlying `batch_update` call (`true` =
it raises); `pfail` models an exception after a successful write (e.g. while
editing the review message); `notify_ok` is the best-effort notification
outcome (it is only attempted when the applicant is logged in, and its failure
raises nothing). The third component counts successful terminal-status store
writes. On any exception the handler's generic except-branch discards
`row_number` from `processed_records` again. -/
def handle_decision (committee_links : List (String × String))
    (wfail pfail notify_ok : Bool) (st : MgrState) (action : String) (row_number : Nat) :
    MgrState × DecisionOutcome × Nat :=
  if st.processed_records.contains row_number then (st, .alreadyProcessed, 0)
  else
    match get_record_by_row st.sheet row_number with
    | none => (st, .recordNotFound, 0)
    | some record =>
      let current_status := pyStrip (record.get "Status")
      if current_status ≠ "" ∧ current_status ≠ "Pending" then
        (st, .alreadyResolved current_status, 0)
      else
        let processed1 := row_number :: st.processed_records
        let committee := pyStrip (record.get "Committee")
        let write :=
          if action = "accept" then
            update_status_and_group_link [wfail] st.sheet row_number "Accepted"
              (some ((dictGet committee_links committee).getD ""))
          else
            update_status_and_group_link [wfail] st.sheet row_number "Rejected" none
        match write with
        | .error _ => (⟨st.sheet, processed1.erase row_number⟩, .genericError, 0)
        | .ok sheet1 =>
          if pfail then (⟨sheet1, processed1.erase row_number⟩, .genericError, 1)
          else
            let notification_sent : Option Bool :=
              if is_user_logged_in record then some notify_ok else none
            (⟨sheet1, processed1⟩, .decided (action == "accept") notification_sent, 1)

end Manager

theorem not_mem_keys_of_dictGet_none {α : Type} (d : List (String × α)) (k : String)
    (h : dictGet d k = none) : k ∉ d.map Prod.fst := by
  induction d with
  | nil => simp
  | cons p rest ih =>
    obtain ⟨k1, v1⟩ := p
    by_cases h1 : k1 = k
    · subst h1
      simp [dictGet] at h
    · rw [dictGet, if_neg h1] at h
      simp only [List.map_cons, List.mem_cons]
      push_neg
      exact ⟨fun he => h1 he.symm, ih h⟩

theorem dictSet_of_not_mem {α : Type} (d : List (String × α)) (k : String) (v : α)
    (h : dictGet d k = none) : dictSet d k v = d ++ [(k, v)] := by
  induction d with
  | nil => simp [dictSet]
  | cons p rest ih =>
    obtain ⟨k1, v1⟩ := p
    by_cases h1 : k1 = k
    · subst h1
      simp [dictGet] at h
    · rw [dictGet, if_neg h1] at h
      simp [dictSet, h1, ih h]

theorem tg_key_inj (a b : String) (h : "tg_" ++ a = "tg_" ++ b) : a = b := by
  have h2 := congrArg String.data h
  simp only [String.data_append] at h2
  have h3 := List.append_cancel_left h2
  cases a; cases b
  exact congrArg String.mk h3

/-- Filling the cache with fresh distinct keys while below capacity appends them
in insertion order. -/
theorem foldl_set_cache_fill (K : Nat) (recf : String → Record) :
    ∀ (ids : List String) (entries : List (String × Record)),
      (∀ i ∈ ids, i ≠ "") → ids.Nodup →
      (∀ i ∈ ids, ("tg_" ++ i) ∉ entries.map Prod.fst) →
      entries.length + ids.length ≤ K →
      ids.foldl (fun c id => Client.set_cache c id (recf id)) ⟨true, K, entries⟩ =
        ⟨true, K, entries ++ ids.map (fun i => ("tg_" ++ i, recf i))⟩ := by
  intro ids
  induction ids with
  | nil =>
    intro entries _ _ _ _
    simp
  | cons id rest ih =>
    intro entries hne hnd hfresh hcap
    simp only [List.foldl_cons]
    have hid : id ≠ "" := hne id (List.mem_cons_self id rest)
    have hget : dictGet entries ("tg_" ++ id) = none :=
      dictGet_eq_none_of_not_mem_keys _ _ (hfresh id (List.mem_cons_self id rest))
    have hlen : entries.length < K := by
      simp only [List.length_cons] at hcap
      omega
    have hstep : Client.set_cache ⟨true, K, entries⟩ id (recf id) =
        ⟨true, K, entries ++ [("tg_" ++ id, recf id)]⟩ := by
      unfold Client.set_cache
      rw [if_neg (by simp [hid])]
      simp only
      rw [if_neg (by push_neg; intro _; omega), dictSet_of_not_mem _ _ _ hget]
    rw [hstep]
    simp only [List.nodup_cons] at hnd
    have hres := ih (entries ++ [("tg_" ++ id, recf id)])
      (fun i hi => hne i (List.mem_cons_of_mem _ hi)) hnd.2
      (by
        intro i hi
        simp only [List.map_append, List.map_cons, List.map_nil, List.mem_append,
          List.mem_singleton]
        push_neg
        refine ⟨hfresh i (List.mem_cons_of_mem _ hi), fun he => ?_⟩
        exact hnd.1 (tg_key_inj i id he ▸ hi))
      (by
        simp only [List.length_append, List.length_singleton, List.length_cons,
          List.length_nil] at hcap ⊢
        omega)
    rw [hres]
    simp

/-- C8: the per-process cache never exceeds its configured capacity (taken ≥ 1);
re-inserting an already-present key never evicts (size and key set unchanged);
and after K+1 inserts of distinct keys into an initially empty cache of capacity
K, the insert at capacity evicts exactly the oldest-inserted entry (strict
FIFO), so the first-inserted key is absent afterwards. -/
theorem C8_cache_capacity_fifo (c : Client.Cache) (tg : String) (r : Record)
    (K : Nat) (ids : List String) (recf : String → Record) (id0 : String) :
    (1 ≤ c.max_cache_size → c.entries.length ≤ c.max_cache_size →
      (Client.set_cache c tg r).entries.length ≤ c.max_cache_size) ∧
    ((dictGet c.entries ("tg_" ++ tg)).isSome →
      (Client.set_cache c tg r).entries.length = c.entries.length ∧
      (Client.set_cache c tg r).entries.map Prod.fst = c.entries.map Prod.fst) ∧
    (1 ≤ K → ids.length = K + 1 → ids.Nodup → (∀ i ∈ ids, i ≠ "") →
      ids.head? = some id0 →
      dictGet (ids.foldl (fun acc id => Client.set_cache acc id (recf id))
          ⟨true, K, []⟩).entries ("tg_" ++ id0) = none) := by
  refine ⟨?_, ?_, ?_⟩
  · intro hK hlen
    unfold Client.set_cache
    by_cases hoff : ¬c.enabled ∨ tg = ""
    · rw [if_pos hoff]
      exact hlen
    · rw [if_neg hoff]
      simp only
      by_cases hnew : dictGet c.entries ("tg_" ++ tg) = none ∧
          c.max_cache_size ≤ c.entries.length
      · obtain ⟨hn1, hn2⟩ := hnew
        rw [if_pos ⟨hn1, hn2⟩]
        have htail : dictGet c.entries.tail ("tg_" ++ tg) = none := by
          apply dictGet_eq_none_of_not_mem_keys
          have h1 := not_mem_keys_of_dictGet_none _ _ hn1
          intro hmem
          rw [List.map_tail] at hmem
          exact h1 (List.mem_of_mem_tail hmem)
        rw [length_dictSet_of_not_mem _ _ _ htail, List.length_tail]
        omega
      · rw [if_neg hnew]
        push_neg at hnew
        by_cases hsome : dictGet c.entries ("tg_" ++ tg) = none
        · have := hnew hsome
          rw [length_dictSet_of_not_mem _ _ _ hsome]
          omega
        · rw [length_dictSet_of_mem _ _ _ (Option.ne_none_iff_isSome.mp hsome)]
          exact hlen
  · intro hsome
    unfold Client.set_cache
    by_cases hoff : ¬c.enabled ∨ tg = ""
    · rw [if_pos hoff]
      exact ⟨rfl, rfl⟩
    · rw [if_neg hoff]
      simp only
      have hnotnone : ¬(dictGet c.entries ("tg_" ++ tg) = none ∧
          c.max_cache_size ≤ c.entries.length) := by
        intro hc
        rw [hc.1] at hsome
        simp at hsome
      rw [if_neg hnotnone]
      exact ⟨length_dictSet_of_mem _ _ _ hsome, keys_dictSet_of_mem _ _ _ hsome⟩
  · intro hK hlen hnd hne hhead
    have hne0 : ids ≠ [] := by
      intro he
      simp [he] at hlen
    have hids : ids = ids.dropLast ++ [ids.getLast hne0] :=
      (List.dropLast_append_getLast hne0).symm
    set front := ids.dropLast with hfront
    set lastid := ids.getLast hne0 with hlast
    have hfrontlen : front.length = K := by
      rw [hfront, List.length_dropLast, hlen]
      omega
    have hnd2 : front.Nodup ∧ lastid ∉ front := by
      rw [hids, List.nodup_append] at hnd
      refine ⟨hnd.1, fun hmem => ?_⟩
      exact (List.disjoint_left.mp hnd.2.2) hmem (List.mem_singleton_self _)
    rw [hids, List.foldl_append]
    have hfill := foldl_set_cache_fill K recf front []
      (fun i hi => hne i (by rw [hids]; exact List.mem_append_left _ hi)) hnd2.1
      (by simp) (by simp [hfrontlen])
    simp only [List.nil_append] at hfill
    rw [hfill]
    simp only [List.foldl_cons, List.foldl_nil]
    have hlastne : lastid ≠ "" :=
      hne lastid (by rw [hids]; exact List.mem_append_right _ (List.mem_singleton_self _))
    have hfreshlast : dictGet (front.map (fun i => ("tg_" ++ i, recf i)))
        ("tg_" ++ lastid) = none := by
      apply dictGet_eq_none_of_not_mem_keys
      simp only [List.map_map, List.mem_map, Function.comp]
      rintro ⟨i, hi, hkey⟩
      exact hnd2.2 (tg_key_inj _ _ hkey ▸ hi)
    have hstep : Client.set_cache ⟨true, K, front.map (fun i => ("tg_" ++ i, recf i))⟩
        lastid (recf lastid) =
        ⟨true, K, dictSet ((front.map (fun i => ("tg_" ++ i, recf i))).tail)
          ("tg_" ++ lastid) (recf lastid)⟩ := by
      unfold Client.set_cache
      rw [if_neg (by simp [hlastne])]
      simp only
      rw [if_pos ⟨hfreshlast, by simp [hfrontlen]⟩]
    rw [hstep]
    have hfront0 : ∃ front', front = id0 :: front' := by
      cases hf : front with
      | nil =>
        rw [hf] at hfrontlen
        simp at hfrontlen
        omega
      | cons a front' =>
        refine ⟨front', ?_⟩
        have ha : ids.head? = some a := by
          rw [hids, hf]
          simp
        rw [hhead] at ha
        injection ha with hh
        rw [hh]
    obtain ⟨front', hf0⟩ := hfront0
    rw [hf0]
    simp only [List.map_cons, List.tail_cons]
    have hid0front : id0 ∉ front' := by
      have h5 := hnd2.1
      rw [hf0, List.nodup_cons] at h5
      exact h5.1
    have hid0last : id0 ≠ lastid := by
      intro he
      apply hnd2.2
      rw [hf0, ← he]
      exact List.mem_cons_self _ _
    rw [dictSet_of_not_mem]
    · apply dictGet_eq_none_of_not_mem_keys
      simp only [List.map_append, List.map_map, List.map_cons, List.map_nil,
        List.mem_append, List.mem_map, Function.comp, List.mem_singleton]
      push_neg
      refine ⟨fun i hi hkey => hid0front (tg_key_inj _ _ hkey.symm ▸ hi), ?_⟩
      intro hkey
      exact hid0last (tg_key_inj _ _ hkey.symm).symm
    · apply dictGet_eq_none_of_not_mem_keys
      simp only [List.map_map, List.mem_map, Function.comp]
      rintro ⟨i, hi, hkey⟩
      have h6 : lastid = i := tg_key_inj _ _ hkey.symm
      exact hnd2.2 (by rw [hf0, h6]; exact List.mem_cons_of_mem _ hi)

/-- Witness for C8 at concrete inputs: capacity 2, re-insert of a present key,
and three distinct keys a, b, c folded into an empty cache of capacity 2. -/
theorem C8_cache_capacity_fifo_witness :
    (Client.set_cache ⟨true, 2, [("tg_a", ⟨[], 2⟩)]⟩ "b" ⟨[], 3⟩).entries.length ≤ 2 ∧
    dictGet (["a", "b", "c"].foldl
      (fun acc id => Client.set_cache acc id ⟨[], 2⟩)
      ⟨true, 2, []⟩).entries "tg_a" = none := by
  have h := C8_cache_capacity_fifo ⟨true, 2, [("tg_a", ⟨[], 2⟩)]⟩ "b" ⟨[], 3⟩ 2
    ["a", "b", "c"] (fun _ => ⟨[], 2⟩) "a"
  exact ⟨h.1 (by decide) (by decide),
    h.2.2 (by decide) (by decide) (by decide) (by decide) (by decide)⟩

theorem dictSet_dictSet {α : Type} (d : List (String × α)) (k : String) (v w : α) :
    dictSet (dictSet d k v) k w = dictSet d k w := by
  induction d with
  | nil => simp [dictSet]
  | cons p rest ih =>
    obtain ⟨k1, v1⟩ := p
    by_cases h : k1 = k
    · simp [dictSet, h]
    · simp [dictSet, h, ih]

/-- Scenario driver for the sliding-window limiter: feed a sequence of request
times for one identity through `_check_logged_user_rate_limit`, threading the
per-process map and counting admitted requests. -/
def run_rate_checks (max_logged_requests : Nat) (logged_limit_minutes : Int)
    (telegram_id : String) :
    List Int → Client.RequestLog → Nat × Client.RequestLog
  | [], m => (0, m)
  | t :: rest, m =>
    let res := Client.check_logged_user_rate_limit max_logged_requests
      logged_limit_minutes t m telegram_id
    let tailres := run_rate_checks max_logged_requests logged_limit_minutes telegram_id
      rest res.2
    (if res.1 then tailres.1 else tailres.1 + 1, tailres.2)

/-- While under the cap and inside the window, every request is admitted and
appended in order. -/
theorem run_rate_checks_all_admitted (M : Nat) (W : Int) (tg : String) :
    ∀ (times acc : List Int) (m : Client.RequestLog),
      (dictGet m tg).getD [] = acc →
      (∀ a, (a ∈ acc ∨ a ∈ times) → ∀ b ∈ times, b - a < W) →
      acc.length + times.length ≤ M →
      run_rate_checks M W tg times m =
        (times.length, if times.isEmpty then m else dictSet m tg (acc ++ times)) := by
  intro times
  induction times with
  | nil =>
    intro acc m hacc hwin hcap
    rw [run_rate_checks]
    simp
  | cons t rest ih =>
    intro acc m hacc hwin hcap
    rw [run_rate_checks]
    have hfilter : List.filter (fun req => decide (t - req < W)) acc = acc :=
      List.filter_eq_self.mpr (fun a ha => by
        simp only [decide_eq_true_eq]
        exact hwin a (Or.inl ha) t (List.mem_cons_self _ _))
    have hnotcap : ¬ M ≤ acc.length := by
      simp only [List.length_cons] at hcap
      omega
    have hstep : Client.check_logged_user_rate_limit M W t m tg =
        (false, dictSet m tg (acc ++ [t])) := by
      unfold Client.check_logged_user_rate_limit
      rw [hacc]
      simp only [hfilter]
      rw [if_neg hnotcap, dictSet_dictSet]
    rw [hstep]
    have hrest := ih (acc ++ [t]) (dictSet m tg (acc ++ [t]))
      (by rw [dictGet_dictSet_self]; rfl)
      (by
        intro a ha b hb
        rcases ha with ha | ha
        · rcases List.mem_append.mp ha with h1 | h1
          · exact hwin a (Or.inl h1) b (List.mem_cons_of_mem _ hb)
          · rw [List.mem_singleton] at h1
            subst h1
            exact hwin a (Or.inr (List.mem_cons_self _ _)) b (List.mem_cons_of_mem _ hb)
        · exact hwin a (Or.inr (List.mem_cons_of_mem _ ha)) b (List.mem_cons_of_mem _ hb))
      (by
        simp only [List.length_append, List.length_singleton, List.length_cons,
          List.length_nil] at hcap ⊢
        omega)
    rw [hrest]
    cases rest with
    | nil => simp
    | cons t2 rest2 =>
      simp only [List.isEmpty_cons, if_neg Bool.false_ne_true, List.length_cons,
        dictSet_dictSet, List.append_assoc, List.singleton_append]

/-- C7: on each authenticated-path rate check, timestamps older than the window
are pruned first; with M or more remaining the request is rejected and `now` is
NOT appended (the rejected request never counts against future windows);
otherwise it is admitted and `now` is appended. Hence M requests within one
window are all admitted, the (M+1)-th inside the window is rejected and
unrecorded, and once the window has elapsed a new request is admitted again. -/
theorem C7_sliding_window_rate_limit (M : Nat) (W : Int) (now : Int) (tg : String)
    (reqs : Client.RequestLog) (times : List Int) :
    (M ≤ (((dictGet reqs tg).getD []).filter (fun req => now - req < W)).length →
      Client.check_logged_user_rate_limit M W now reqs tg =
        (true, dictSet reqs tg (((dictGet reqs tg).getD []).filter
          (fun req => now - req < W)))) ∧
    ((((dictGet reqs tg).getD []).filter (fun req => now - req < W)).length < M →
      Client.check_logged_user_rate_limit M W now reqs tg =
        (false, dictSet reqs tg ((((dictGet reqs tg).getD []).filter
          (fun req => now - req < W)) ++ [now]))) ∧
    ((dictGet reqs tg).getD [] = [] →
      (∀ a ∈ times, ∀ b ∈ times, b - a < W) →
      times.length = M → 1 ≤ M →
      run_rate_checks M W tg times reqs = (M, dictSet reqs tg times)) ∧
    ((∀ a ∈ (dictGet reqs tg).getD [], now - a < W) →
      ((dictGet reqs tg).getD []).length = M →
      Client.check_logged_user_rate_limit M W now reqs tg =
        (true, dictSet reqs tg ((dictGet reqs tg).getD []))) ∧
    ((∀ a ∈ (dictGet reqs tg).getD [], W ≤ now - a) → 1 ≤ M →
      Client.check_logged_user_rate_limit M W now reqs tg =
        (false, dictSet reqs tg [now])) := by
  refine ⟨?_, ?_, ?_, ?_, ?_⟩
  · intro hcap
    unfold Client.check_logged_user_rate_limit
    rw [if_pos hcap]
  · intro hcap
    unfold Client.check_logged_user_rate_limit
    rw [if_neg (by omega), dictSet_dictSet]
  · intro hempty hwin hlen hM
    have h := run_rate_checks_all_admitted M W tg times [] reqs hempty
      (by
        intro a ha b hb
        rcases ha with ha | ha
        · simp at ha
        · exact hwin a ha b hb)
      (by simp [hlen])
    rw [h, hlen]
    cases times with
    | nil =>
      simp only [List.length_nil] at hlen
      omega
    | cons t rest => simp
  · intro hwin hlen
    have hfilter : List.filter (fun req => decide (now - req < W))
        ((dictGet reqs tg).getD []) = (dictGet reqs tg).getD [] :=
      List.filter_eq_self.mpr (fun a ha => by
        simp only [decide_eq_true_eq]
        exact hwin a ha)
    unfold Client.check_logged_user_rate_limit
    simp only [hfilter]
    rw [if_pos (by omega)]
  · intro hwin hM
    have hfilter : List.filter (fun req => decide (now - req < W))
        ((dictGet reqs tg).getD []) = [] :=
      List.filter_eq_nil_iff.mpr (fun a ha => by
        simp only [decide_eq_true_eq]
        have := hwin a ha
        omega)
    unfold Client.check_logged_user_rate_limit
    simp only [hfilter]
    rw [if_neg (by simp [hM]; omega), dictSet_dictSet]
    simp

/-- Witness for C7 at concrete inputs: cap 2, window 5 minutes, two requests at
t = 0 and t = 1 both admitted; a third at t = 2 rejected and unrecorded; a
request at t = 6 (window elapsed) admitted. -/
theorem C7_sliding_window_rate_limit_witness :
    run_rate_checks 2 5 "u" [0, 1] [] = (2, [("u", [0, 1])]) ∧
    Client.check_logged_user_rate_limit 2 5 2 [("u", [0, 1])] "u" =
      (true, [("u", [0, 1])]) ∧
    Client.check_logged_user_rate_limit 2 5 6 [("u", [0, 1])] "u" =
      (false, [("u", [6])]) := by
  have h1 := (C7_sliding_window_rate_limit 2 5 0 "u" [] [0, 1]).2.2.1
    (by decide) (by decide) (by decide) (by decide)
  have h2 := (C7_sliding_window_rate_limit 2 5 2 "u" [("u", [0, 1])] []).2.2.2.1
    (by decide) (by decide)
  have h3 := (C7_sliding_window_rate_limit 2 5 6 "u" [("u", [0, 1])] []).2.2.2.2
    (by decide) (by decide)
  refine ⟨?_, ?_, ?_⟩
  · rw [h1]
    decide
  · rw [h2]
    decide
  · rw [h3]
    decide

theorem dictPop_of_dictGet_none {α : Type} (d : List (String × α)) (k : String)
    (h : dictGet d k = none) : dictPop d k = d := by
  induction d with
  | nil => simp [dictPop]
  | cons p rest ih =>
    obtain ⟨k1, v1⟩ := p
    by_cases h1 : k1 = k
    · subst h1
      simp [dictGet] at h
    · rw [dictGet, if_neg h1] at h
      simp [dictPop, h1, ih h]

/-- C6: the ban lifecycle of the unauthenticated path. (a) the N-th consecutive
failed lookup stamps `banned_until = now + ban duration` on the existing record;
(b) likewise for threshold N = 1 on a fresh record; (c) while `now < banned_until`
the request is rejected with the ban end time and neither map changes (no further
counting); (d) the first failed lookup after expiry finds the record removed and
starts a fresh one with count 1; (e) a successful lookup after expiry leaves no
attempt record; (f) a successful lookup at any unbanned time clears the attempt
record immediately. -/
theorem C6_ban_lifecycle (N : Nat) (banM : Int) (M : Nat) (W : Int) (now b : Int)
    (tg : String) (r : Record) (attempts : Client.Attempts)
    (reqlog : Client.RequestLog) (info : Client.AttemptInfo) :
    (dictGet attempts tg = some info → info.banned_until = none → info.count + 1 = N →
      Client.start_command N banM M W now tg none attempts reqlog =
        (.userNotFound, dictSet attempts tg ⟨N, info.first_attempt, some (now + banM)⟩,
         reqlog)) ∧
    (dictGet attempts tg = none → N = 1 →
      Client.start_command N banM M W now tg none attempts reqlog =
        (.userNotFound, dictSet attempts tg ⟨1, now, some (now + banM)⟩, reqlog)) ∧
    (dictGet attempts tg = some info → info.banned_until = some b → now < b →
      Client.start_command N banM M W now tg none attempts reqlog =
        (.bannedReply b, attempts, reqlog)) ∧
    (dictGet attempts tg = some info → info.banned_until = some b → b ≤ now → 2 ≤ N →
      (attempts.map Prod.fst).Nodup →
      Client.start_command N banM M W now tg none attempts reqlog =
        (.userNotFound, dictSet (dictPop attempts tg) tg ⟨1, now, none⟩, reqlog)) ∧
    (dictGet attempts tg = some info → info.banned_until = some b → b ≤ now →
      (attempts.map Prod.fst).Nodup →
      (Client.start_command N banM M W now tg (some r) attempts reqlog).2.1 =
          dictPop attempts tg ∧
        dictGet (dictPop attempts tg) tg = none) ∧
    (dictGet attempts tg = some info → info.banned_until = none →
      (attempts.map Prod.fst).Nodup →
      (Client.start_command N banM M W now tg (some r) attempts reqlog).2.1 =
          dictPop attempts tg ∧
        dictGet (dictPop attempts tg) tg = none) := by
  refine ⟨?_, ?_, ?_, ?_, ?_, ?_⟩
  · intro hget hbu hc
    have hban : Client.is_user_banned now attempts tg = ((false, none), attempts) := by
      unfold Client.is_user_banned
      rw [hget]
      simp only [hbu]
    have hrfa : Client.record_failed_attempt N banM now attempts tg =
        dictSet attempts tg ⟨N, info.first_attempt, some (now + banM)⟩ := by
      unfold Client.record_failed_attempt
      rw [hget]
      simp only [dictGet_dictSet_self]
      rw [if_pos (by omega), dictSet_dictSet]
      rw [hc]
    simp only [Client.start_command, hban, Bool.false_eq_true, if_false, hrfa]
  · intro hget hN
    have hban : Client.is_user_banned now attempts tg = ((false, none), attempts) := by
      unfold Client.is_user_banned
      rw [hget]
    have hrfa : Client.record_failed_attempt N banM now attempts tg =
        dictSet attempts tg ⟨1, now, some (now + banM)⟩ := by
      unfold Client.record_failed_attempt
      rw [hget]
      simp only [dictGet_dictSet_self]
      rw [if_pos (by omega), dictSet_dictSet]
    simp only [Client.start_command, hban, Bool.false_eq_true, if_false, hrfa]
  · intro hget hbu hnow
    have hban : Client.is_user_banned now attempts tg = ((true, some b), attempts) := by
      unfold Client.is_user_banned
      rw [hget]
      simp only [hbu, if_pos hnow]
    simp only [Client.start_command, hban, if_true]
    rfl
  · intro hget hbu hnow hN hnd
    have hban : Client.is_user_banned now attempts tg =
        ((false, none), dictPop attempts tg) := by
      unfold Client.is_user_banned
      rw [hget]
      simp only [hbu, if_neg (show ¬ now < b by omega)]
    have hpopped : dictGet (dictPop attempts tg) tg = none :=
      dictGet_dictPop_self attempts tg hnd
    have hrfa : Client.record_failed_attempt N banM now (dictPop attempts tg) tg =
        dictSet (dictPop attempts tg) tg ⟨1, now, none⟩ := by
      unfold Client.record_failed_attempt
      rw [hpopped]
      simp only [dictGet_dictSet_self]
      rw [if_neg (by omega)]
    simp only [Client.start_command, hban, Bool.false_eq_true, if_false, hrfa]
  · intro hget hbu hnow hnd
    have hban : Client.is_user_banned now attempts tg =
        ((false, none), dictPop attempts tg) := by
      unfold Client.is_user_banned
      rw [hget]
      simp only [hbu, if_neg (show ¬ now < b by omega)]
    have hpopped : dictGet (dictPop attempts tg) tg = none :=
      dictGet_dictPop_self attempts tg hnd
    refine ⟨?_, hpopped⟩
    simp only [Client.start_command, hban, Bool.false_eq_true, if_false,
      dictPop_of_dictGet_none _ _ hpopped]
    by_cases hl : Client.is_user_logged_in r
    · simp only [hl, if_true]
      by_cases hrl : (Client.check_logged_user_rate_limit M W now reqlog tg).1
      · simp [hrl]
      · simp [hrl]
    · simp [hl]
  · intro hget hbu hnd
    have hban : Client.is_user_banned now attempts tg = ((false, none), attempts) := by
      unfold Client.is_user_banned
      rw [hget]
      simp only [hbu]
    have hpopped : dictGet (dictPop attempts tg) tg = none :=
      dictGet_dictPop_self attempts tg hnd
    refine ⟨?_, hpopped⟩
    simp only [Client.start_command, hban, Bool.false_eq_true, if_false]
    by_cases hl : Client.is_user_logged_in r
    · simp only [hl, if_true]
      by_cases hrl : (Client.check_logged_user_rate_limit M W now reqlog tg).1
      · simp [hrl]
      · simp [hrl]
    · simp [hl]

/-- Witness for C6 at concrete inputs: threshold 2, ban 5 minutes. The second
failure at t = 3 bans until 8; a request at t = 5 is rejected with no state
change; a failed lookup at t = 9 restarts the record at count 1; a successful
lookup at t = 9 leaves no record. -/
theorem C6_ban_lifecycle_witness :
    Client.start_command 2 5 10 5 3 "u" none [("u", ⟨1, 0, none⟩)] [] =
      (.userNotFound, [("u", ⟨2, 0, some 8⟩)], []) ∧
    Client.start_command 2 5 10 5 5 "u" none [("u", ⟨2, 0, some 8⟩)] [] =
      (.bannedReply 8, [("u", ⟨2, 0, some 8⟩)], []) ∧
    Client.start_command 2 5 10 5 9 "u" none [("u", ⟨2, 0, some 8⟩)] [] =
      (.userNotFound, [("u", ⟨1, 9, none⟩)], []) ∧
    (Client.start_command 2 5 10 5 9 "u" (some ⟨[], 2⟩) [("u", ⟨2, 0, some 8⟩)] []).2.1
      = [] := by
  have h1 := (C6_ban_lifecycle 2 5 10 5 3 8 "u" ⟨[], 2⟩ [("u", ⟨1, 0, none⟩)] []
    ⟨1, 0, none⟩).1 (by decide) (by decide) (by decide)
  have h2 := (C6_ban_lifecycle 2 5 10 5 5 8 "u" ⟨[], 2⟩ [("u", ⟨2, 0, some 8⟩)] []
    ⟨2, 0, some 8⟩).2.2.1 (by decide) (by decide) (by decide)
  have h3 := (C6_ban_lifecycle 2 5 10 5 9 8 "u" ⟨[], 2⟩ [("u", ⟨2, 0, some 8⟩)] []
    ⟨2, 0, some 8⟩).2.2.2.1 (by decide) (by decide) (by decide) (by decide) (by decide)
  have h4 := (C6_ban_lifecycle 2 5 10 5 9 8 "u" ⟨[], 2⟩ [("u", ⟨2, 0, some 8⟩)] []
    ⟨2, 0, some 8⟩).2.2.2.2.1 (by decide) (by decide) (by decide) (by decide)
  exact ⟨h1.trans (by decide), h2.trans (by decide), h3.trans (by decide),
    h4.1.trans (by decide)⟩

theorem headerCol_Status : headerCol "Status" = 15 := rfl

theorem headerCol_Group_Link : headerCol "Group_Link" = 10 := rfl

theorem headerCol_Logged_In : headerCol "Logged_In" = 16 := rfl

theorem pyStrip_empty : pyStrip "" = "" := rfl

theorem pyStrip_Pending : pyStrip "Pending" = "Pending" := by decide

theorem pyStrip_Accepted : pyStrip "Accepted" = "Accepted" := by decide

theorem pyStrip_Rejected : pyStrip "Rejected" = "Rejected" := by decide

theorem mgr_get_record_some (s : Sheet) (row : Nat) (hne : s.getD (row - 1) [] ≠ []) :
    Manager.get_record_by_row s row =
      some ⟨HEADERS.map (fun p => (p.1, pyStrip ((s.getD (row - 1) []).getD (p.2 - 1) ""))),
        row⟩ := by
  unfold Manager.get_record_by_row
  rw [if_neg hne]

theorem mgr_fields_get_status (l : List String) (row : Nat) :
    Record.get ⟨HEADERS.map (fun p => (p.1, pyStrip (l.getD (p.2 - 1) ""))), row⟩ "Status" =
      pyStrip (l.getD 14 "") := rfl

/-- Effect of a successful terminal-status write on the written row. -/
theorem apply_status_update_facts (s : Sheet) (row : Nat) (status : String)
    (glink : Option String) (h1 : 1 ≤ row) (h2 : row ≤ s.length) :
    getCell (Manager.apply_status_update s row status glink) row 15 = status ∧
    (Manager.apply_status_update s row status glink).getD (row - 1) [] ≠ [] ∧
    (Manager.apply_status_update s row status glink).length = s.length := by
  have hlt : row - 1 < s.length := by omega
  unfold Manager.apply_status_update
  rw [headerCol_Status, headerCol_Group_Link]
  by_cases hg : glink.getD "" = ""
  · rw [if_pos hg]
    exact ⟨getCell_setCell_self s row 15 status hlt (by omega),
      getD_setCell_ne_nil s row 15 status hlt (by omega),
      length_setCell s row 15 status⟩
  · rw [if_neg hg]
    have hlt1 : row - 1 < (setCell s row 15 status).length := by
      rw [length_setCell]; exact hlt
    refine ⟨?_, getD_setCell_ne_nil _ row 10 _ hlt1 (by omega), ?_⟩
    · rw [getCell_setCell_ne_col _ row 10 15 _ (by omega)]
      exact getCell_setCell_self s row 15 status hlt (by omega)
    · rw [length_setCell, length_setCell]

/-- A decision on an unresolved row succeeds: the row is claimed, the terminal
status is written in exactly one store write, and the re-readable status cell of
the written sheet is terminal. -/
theorem handle_decision_success (links : List (String × String)) (nok : Bool)
    (sheet : Sheet) (ps1 : List Nat) (a1 : String) (row : Nat)
    (hrow1 : 1 ≤ row) (hrow2 : row ≤ sheet.length)
    (hne : sheet.getD (row - 1) [] ≠ [])
    (hstatus : pyStrip (getCell sheet row 15) = "" ∨
      pyStrip (getCell sheet row 15) = "Pending")
    (hps1 : ps1.contains row = false) :
    ∃ sheet1 nb,
      Manager.handle_decision links false false nok ⟨sheet, ps1⟩ a1 row =
        (⟨sheet1, row :: ps1⟩, Manager.DecisionOutcome.decided (a1 == "accept") nb, 1) ∧
      (getCell sheet1 row 15 = "Accepted" ∨ getCell sheet1 row 15 = "Rejected") ∧
      sheet1.getD (row - 1) [] ≠ [] ∧ sheet1.length = sheet.length := by
  have hcs : pyStrip (pyStrip ((sheet.getD (row - 1) []).getD 14 "")) = "" ∨
      pyStrip (pyStrip ((sheet.getD (row - 1) []).getD 14 "")) = "Pending" := by
    unfold getCell at hstatus
    rcases hstatus with hst | hst
    · rw [hst, pyStrip_empty]
      exact Or.inl rfl
    · rw [hst, pyStrip_Pending]
      exact Or.inr rfl
  have hcond : ¬ (pyStrip (Record.get ⟨HEADERS.map
      (fun p => (p.1, pyStrip ((sheet.getD (row - 1) []).getD (p.2 - 1) ""))), row⟩
        "Status") ≠ "" ∧
      pyStrip (Record.get ⟨HEADERS.map
      (fun p => (p.1, pyStrip ((sheet.getD (row - 1) []).getD (p.2 - 1) ""))), row⟩
        "Status") ≠ "Pending") := by
    rw [mgr_fields_get_status]
    rcases hcs with hst | hst
    · rw [hst]
      simp
    · rw [hst]
      simp
  by_cases ha : a1 = "accept"
  · refine ⟨Manager.apply_status_update sheet row "Accepted"
      (some ((dictGet links (pyStrip (Record.get ⟨HEADERS.map
        (fun p => (p.1, pyStrip ((sheet.getD (row - 1) []).getD (p.2 - 1) ""))), row⟩
        "Committee"))).getD "")), ?_, ?_⟩
    · exact if Manager.is_user_logged_in ⟨HEADERS.map
        (fun p => (p.1, pyStrip ((sheet.getD (row - 1) []).getD (p.2 - 1) ""))), row⟩
        then some nok else none
    · obtain ⟨hc1, hc2, hc3⟩ := apply_status_update_facts sheet row "Accepted"
        (some ((dictGet links (pyStrip (Record.get ⟨HEADERS.map
          (fun p => (p.1, pyStrip ((sheet.getD (row - 1) []).getD (p.2 - 1) ""))), row⟩
          "Committee"))).getD "")) hrow1 hrow2
      refine ⟨?_, Or.inl hc1, hc2, hc3⟩
      unfold Manager.handle_decision
      rw [hps1]
      simp only [Bool.false_eq_true, if_false]
      rw [mgr_get_record_some sheet row hne]
      simp only
      rw [if_neg hcond, if_pos ha]
      unfold Manager.update_status_and_group_link
      simp only [List.headD_cons, Bool.false_eq_true, if_false, ha]
  · refine ⟨Manager.apply_status_update sheet row "Rejected" none, ?_, ?_⟩
    · exact if Manager.is_user_logged_in ⟨HEADERS.map
        (fun p => (p.1, pyStrip ((sheet.getD (row - 1) []).getD (p.2 - 1) ""))), row⟩
        then some nok else none
    · obtain ⟨hc1, hc2, hc3⟩ := apply_status_update_facts sheet row "Rejected" none
        hrow1 hrow2
      refine ⟨?_, Or.inr hc1, hc2, hc3⟩
      unfold Manager.handle_decision
      rw [hps1]
      simp only [Bool.false_eq_true, if_false]
      rw [mgr_get_record_some sheet row hne]
      simp only
      rw [if_neg hcond, if_neg ha]
      unfold Manager.update_status_and_group_link
      simp only [List.headD_cons, Bool.false_eq_true, if_false]

/-- A decision action arriving at a row whose status cell already holds a
terminal value is rejected as a conflict — either by the process-local
ProcessedSet or by the authoritative status re-read — with no store write. -/
theorem handle_decision_conflict_terminal (links : List (String × String))
    (wf pf nok : Bool) (sheet1 : Sheet) (ps2 : List Nat) (a2 : String) (row : Nat)
    (hterm : getCell sheet1 row 15 = "Accepted" ∨ getCell sheet1 row 15 = "Rejected")
    (hne2 : sheet1.getD (row - 1) [] ≠ []) :
    Manager.handle_decision links wf pf nok ⟨sheet1, ps2⟩ a2 row =
      if ps2.contains row
      then (⟨sheet1, ps2⟩, Manager.DecisionOutcome.alreadyProcessed, 0)
      else (⟨sheet1, ps2⟩,
        Manager.DecisionOutcome.alreadyResolved (getCell sheet1 row 15), 0) := by
  by_cases hc : ps2.contains row
  · rw [if_pos hc]
    unfold Manager.handle_decision
    rw [hc]
    simp
  · rw [if_neg hc]
    unfold Manager.handle_decision
    rw [show ps2.contains row = false from Bool.eq_false_iff.mpr hc]
    simp only [Bool.false_eq_true, if_false]
    rw [mgr_get_record_some sheet1 row hne2]
    simp only
    unfold getCell at hterm
    rcases hterm with ht | ht
    · rw [if_pos (by rw [mgr_fields_get_status, ht, pyStrip_Accepted]; exact ⟨by decide, by decide⟩)]
      rw [mgr_fields_get_status, ht, pyStrip_Accepted]
      unfold getCell
      rw [ht, pyStrip_Accepted]
    · rw [if_pos (by rw [mgr_fields_get_status, ht, pyStrip_Rejected]; exact ⟨by decide, by decide⟩)]
      rw [mgr_fields_get_status, ht, pyStrip_Rejected]
      unfold getCell
      rw [ht, pyStrip_Rejected]

/-- C1: two reviewer decision actions on the same initially-unresolved row yield
exactly one successful terminal-status store write and exactly one non-Conflict
outcome. The first action succeeds (one write, row claimed); the second — with
ANY process-local ProcessedSet, covering both the same process and a fresh
one — is answered with a Conflict (already-processed when the row number is in
that set, otherwise already-resolved from the authoritative status re-read) and
performs no store write, leaving the sheet unchanged. -/
theorem C1_decision_idempotency (links : List (String × String)) (nok1 nok2 : Bool)
    (sheet : Sheet) (row : Nat) (a1 a2 : String) (ps1 : List Nat)
    (hrow1 : 1 ≤ row) (hrow2 : row ≤ sheet.length)
    (hne : sheet.getD (row - 1) [] ≠ [])
    (hstatus : pyStrip (getCell sheet row 15) = "" ∨
      pyStrip (getCell sheet row 15) = "Pending")
    (hps1 : ps1.contains row = false) :
    ∃ sheet1 nb,
      Manager.handle_decision links false false nok1 ⟨sheet, ps1⟩ a1 row =
        (⟨sheet1, row :: ps1⟩, Manager.DecisionOutcome.decided (a1 == "accept") nb, 1) ∧
      (getCell sheet1 row 15 = "Accepted" ∨ getCell sheet1 row 15 = "Rejected") ∧
      (∀ ps2 : List Nat,
        Manager.handle_decision links false false nok2 ⟨sheet1, ps2⟩ a2 row =
          if ps2.contains row
          then (⟨sheet1, ps2⟩, Manager.DecisionOutcome.alreadyProcessed, 0)
          else (⟨sheet1, ps2⟩,
            Manager.DecisionOutcome.alreadyResolved (getCell sheet1 row 15), 0)) := by
  obtain ⟨sheet1, nb, heq, hterm, hne1, _⟩ :=
    handle_decision_success links nok1 sheet ps1 a1 row hrow1 hrow2 hne hstatus hps1
  exact ⟨sheet1, nb, heq, hterm, fun ps2 =>
    handle_decision_conflict_terminal links false false nok2 sheet1 ps2 a2 row hterm hne1⟩

/-- Witness for C1 at a concrete input: a two-row sheet whose data row is
unresolved, an accept followed by a reject, in the same process. -/
theorem C1_decision_idempotency_witness :
    ∃ sheet1 nb,
      Manager.handle_decision [] false false false ⟨[[""], ["x"]], []⟩ "accept" 2 =
        (⟨sheet1, [2]⟩, Manager.DecisionOutcome.decided true nb, 1) ∧
      (getCell sheet1 2 15 = "Accepted" ∨ getCell sheet1 2 15 = "Rejected") ∧
      Manager.handle_decision [] false false false ⟨sheet1, [2]⟩ "reject" 2 =
        (⟨sheet1, [2]⟩, Manager.DecisionOutcome.alreadyProcessed, 0) := by
  obtain ⟨sheet1, nb, heq, hterm, hconf⟩ :=
    C1_decision_idempotency [] false false [[""], ["x"]] 2 "accept" "reject" []
      (by decide) (by decide) (by decide) (by decide) (by decide)
  refine ⟨sheet1, nb, heq, hterm, ?_⟩
  rw [hconf [2]]
  rfl

/-- C2 counterexample: the claim asserts the row number REMAINS in the
ProcessedSet after an exception during the status write. At this concrete
input (unresolved row 2, store write raises) the handler's except-branch
discards it: the ProcessedSet does not contain the row afterwards. -/
theorem C2_claim_counterexample :
    (Manager.handle_decision [] true false false ⟨[[""], ["x"]], []⟩ "accept" 2
      ).1.processed_records.contains 2 = false := by
  decide

theorem unresolved_status_cond (sheet : Sheet) (row : Nat)
    (hstatus : pyStrip (getCell sheet row 15) = "" ∨
      pyStrip (getCell sheet row 15) = "Pending") :
    ¬ (pyStrip (Record.get ⟨HEADERS.map
        (fun p => (p.1, pyStrip ((sheet.getD (row - 1) []).getD (p.2 - 1) ""))), row⟩
          "Status") ≠ "" ∧
      pyStrip (Record.get ⟨HEADERS.map
        (fun p => (p.1, pyStrip ((sheet.getD (row - 1) []).getD (p.2 - 1) ""))), row⟩
          "Status") ≠ "Pending") := by
  rw [mgr_fields_get_status]
  unfold getCell at hstatus
  rcases hstatus with hst | hst
  · rw [hst, pyStrip_empty]
    simp
  · rw [hst, pyStrip_Pending]
    simp

/-- C2 amended: if an exception occurs in the decision consumer after the row
number was added to the ProcessedSet, the generic except-branch REMOVES the row
number again (the reviewer is told to retry), leaving the ProcessedSet as it
was before the action; the failure is surfaced as a generic error. When the
write itself raised the sheet is unchanged; when the exception came after the
write, the terminal status is already in the store. -/
theorem C2_exception_discards_row (links : List (String × String)) (nok : Bool)
    (sheet : Sheet) (ps : List Nat) (a : String) (row : Nat)
    (hrow1 : 1 ≤ row) (hrow2 : row ≤ sheet.length)
    (hne : sheet.getD (row - 1) [] ≠ [])
    (hstatus : pyStrip (getCell sheet row 15) = "" ∨
      pyStrip (getCell sheet row 15) = "Pending")
    (hps : ps.contains row = false) :
    Manager.handle_decision links true false nok ⟨sheet, ps⟩ a row =
      (⟨sheet, ps⟩, Manager.DecisionOutcome.genericError, 0) ∧
    ∃ sheet1,
      Manager.handle_decision links false true nok ⟨sheet, ps⟩ a row =
        (⟨sheet1, ps⟩, Manager.DecisionOutcome.genericError, 1) ∧
      (getCell sheet1 row 15 = "Accepted" ∨ getCell sheet1 row 15 = "Rejected") := by
  have hcond := unresolved_status_cond sheet row hstatus
  constructor
  · unfold Manager.handle_decision
    rw [hps]
    simp only [Bool.false_eq_true, if_false]
    rw [mgr_get_record_some sheet row hne]
    simp only
    rw [if_neg hcond]
    by_cases ha : a = "accept"
    · rw [if_pos ha]
      unfold Manager.update_status_and_group_link
      simp [List.erase_cons_head]
    · rw [if_neg ha]
      unfold Manager.update_status_and_group_link
      simp [List.erase_cons_head]
  · by_cases ha : a = "accept"
    · refine ⟨Manager.apply_status_update sheet row "Accepted"
        (some ((dictGet links (pyStrip (Record.get ⟨HEADERS.map
          (fun p => (p.1, pyStrip ((sheet.getD (row - 1) []).getD (p.2 - 1) ""))), row⟩
          "Committee"))).getD "")), ?_, ?_⟩
      · unfold Manager.handle_decision
        rw [hps]
        simp only [Bool.false_eq_true, if_false]
        rw [mgr_get_record_some sheet row hne]
        simp only
        rw [if_neg hcond, if_pos ha]
        unfold Manager.update_status_and_group_link
        simp [List.erase_cons_head]
      · exact Or.inl (apply_status_update_facts sheet row "Accepted" _ hrow1 hrow2).1
    · refine ⟨Manager.apply_status_update sheet row "Rejected" none, ?_, ?_⟩
      · unfold Manager.handle_decision
        rw [hps]
        simp only [Bool.false_eq_true, if_false]
        rw [mgr_get_record_some sheet row hne]
        simp only
        rw [if_neg hcond, if_neg ha]
        unfold Manager.update_status_and_group_link
        simp [List.erase_cons_head]
      · exact Or.inr (apply_status_update_facts sheet row "Rejected" none hrow1 hrow2).1

/-- Witness for the amended C2 at a concrete input. -/
theorem C2_exception_discards_row_witness :
    Manager.handle_decision [] true false false ⟨[[""], ["x"]], []⟩ "accept" 2 =
      (⟨[[""], ["x"]], []⟩, Manager.DecisionOutcome.genericError, 0) := by
  exact (C2_exception_discards_row [] false [[""], ["x"]] [] "accept" 2
    (by decide) (by decide) (by decide) (by decide) (by decide)).1

theorem length_apply_status_update (s : Sheet) (row : Nat) (status : String)
    (glink : Option String) :
    (Manager.apply_status_update s row status glink).length = s.length := by
  unfold Manager.apply_status_update
  by_cases hg : glink.getD "" = ""
  · rw [if_pos hg, length_setCell]
  · rw [if_neg hg, length_setCell, length_setCell]

theorem pending_from_row_bounds :
    ∀ (rows : List (List String)) (i : Nat) (r : Record),
      r ∈ Manager.pending_from i rows → i ≤ r.row_number ∧ r.row_number < i + rows.length := by
  intro rows
  induction rows with
  | nil =>
    intro i r hr
    simp [Manager.pending_from] at hr
  | cons row rest ih =>
    intro i r hr
    rw [Manager.pending_from] at hr
    by_cases hsel : pyStrip (Record.get ⟨HEADERS.map
        (fun p => (p.1, pyStrip (row.getD (p.2 - 1) ""))), i⟩ "Status") = "" ∨
        pyLower (pyStrip (Record.get ⟨HEADERS.map
          (fun p => (p.1, pyStrip (row.getD (p.2 - 1) ""))), i⟩ "Status")) = "pending"
    · rw [if_pos hsel] at hr
      rcases List.mem_cons.mp hr with hr | hr
      · subst hr
        simp only [List.length_cons]
        omega
      · have := ih (i + 1) r hr
        simp only [List.length_cons]
        omega
    · rw [if_neg hsel] at hr
      have := ih (i + 1) r hr
      simp only [List.length_cons]
      omega

theorem pending_from_pairwise (rows : List (List String)) (i : Nat) (hi : 1 ≤ i) :
    (Manager.pending_from i rows).Pairwise
      (fun a b => a.row_number - 1 ≠ b.row_number - 1) := by
  induction rows generalizing i with
  | nil => simp [Manager.pending_from]
  | cons row rest ih =>
    rw [Manager.pending_from]
    by_cases hsel : pyStrip (Record.get ⟨HEADERS.map
        (fun p => (p.1, pyStrip (row.getD (p.2 - 1) ""))), i⟩ "Status") = "" ∨
        pyLower (pyStrip (Record.get ⟨HEADERS.map
          (fun p => (p.1, pyStrip (row.getD (p.2 - 1) ""))), i⟩ "Status")) = "pending"
    · rw [if_pos hsel]
      refine List.Pairwise.cons ?_ (ih (i + 1) (by omega))
      intro b hb
      have := pending_from_row_bounds rest (i + 1) b hb
      simp only
      omega
    · rw [if_neg hsel]
      exact ih (i + 1) (by omega)

theorem get_pending_records_bounds (s : Sheet) (r : Record)
    (hr : r ∈ Manager.get_pending_records s) :
    2 ≤ r.row_number ∧ r.row_number ≤ s.length := by
  unfold Manager.get_pending_records at hr
  by_cases hlen : s.length < 2
  · rw [if_pos hlen] at hr
    simp at hr
  · rw [if_neg hlen] at hr
    have := pending_from_row_bounds (s.drop 1) 2 r hr
    rw [List.length_drop] at this
    omega

theorem get_pending_records_pairwise (s : Sheet) :
    (Manager.get_pending_records s).Pairwise
      (fun a b => a.row_number - 1 ≠ b.row_number - 1) := by
  unfold Manager.get_pending_records
  by_cases hlen : s.length < 2
  · rw [if_pos hlen]
    exact List.Pairwise.nil
  · rw [if_neg hlen]
    exact pending_from_pairwise (s.drop 1) 2 (by omega)

theorem check_step_sheet_length (d : Nat → List Bool) (acc : Manager.SweepResult)
    (q : Record) : (Manager.check_step d acc q).sheet.length = acc.sheet.length := by
  unfold Manager.check_step
  by_cases hs : Manager.send_request_for_review (d q.row_number) q
  · simp only [if_pos hs]
    exact length_apply_status_update _ _ _ _
  · simp only [if_neg hs]

theorem check_step_cell_untouched (d : Nat → List Bool) (acc : Manager.SweepResult)
    (q : Record) (row col : Nat) (hne : q.row_number - 1 ≠ row - 1) :
    getCell (Manager.check_step d acc q).sheet row col = getCell acc.sheet row col := by
  unfold Manager.check_step
  by_cases hs : Manager.send_request_for_review (d q.row_number) q
  · simp only [if_pos hs]
    unfold Manager.apply_status_update
    rw [if_pos (by rfl)]
    exact getCell_setCell_ne_row _ _ _ _ _ _ hne.symm
  · simp only [if_neg hs]

theorem check_fold_sheet_length (d : Nat → List Bool) :
    ∀ (l : List Record) (acc : Manager.SweepResult),
      (l.foldl (Manager.check_step d) acc).sheet.length = acc.sheet.length := by
  intro l
  induction l with
  | nil =>
    intro acc
    rfl
  | cons q rest ih =>
    intro acc
    rw [List.foldl_cons, ih]
    exact check_step_sheet_length d acc q

theorem check_fold_untouched (d : Nat → List Bool) :
    ∀ (l : List Record) (acc : Manager.SweepResult) (row col : Nat),
      (∀ r ∈ l, r.row_number - 1 ≠ row - 1) →
      getCell (l.foldl (Manager.check_step d) acc).sheet row col =
        getCell acc.sheet row col := by
  intro l
  induction l with
  | nil =>
    intro acc row col _
    rfl
  | cons q rest ih =>
    intro acc row col hout
    rw [List.foldl_cons,
      ih (Manager.check_step d acc q) row col
        (fun r hr => hout r (List.mem_cons_of_mem _ hr))]
    exact check_step_cell_untouched d acc q row col (hout q (List.mem_cons_self _ _))

/-- Each pending row's final status cell after the sweep: `"Pending"` exactly
when its dispatch reached every reviewer, otherwise untouched. -/
theorem check_fold_row_status (d : Nat → List Bool) :
    ∀ (l : List Record) (acc : Manager.SweepResult),
      l.Pairwise (fun a b => a.row_number - 1 ≠ b.row_number - 1) →
      (∀ r ∈ l, 1 ≤ r.row_number ∧ r.row_number ≤ acc.sheet.length) →
      ∀ r ∈ l,
        getCell (l.foldl (Manager.check_step d) acc).sheet r.row_number 15 =
          if Manager.send_request_for_review (d r.row_number) r then "Pending"
          else getCell acc.sheet r.row_number 15 := by
  intro l
  induction l with
  | nil =>
    intro acc _ _ r hr
    simp at hr
  | cons q rest ih =>
    intro acc hpw hbounds r hr
    rw [List.pairwise_cons] at hpw
    rw [List.foldl_cons]
    rcases List.mem_cons.mp hr with hr | hr
    · subst hr
      rw [check_fold_untouched d rest _ r.row_number 15
        (fun b hb => (hpw.1 b hb).symm)]
      unfold Manager.check_step
      by_cases hs : Manager.send_request_for_review (d r.row_number) r
      · simp only [if_pos hs]
        have hb := hbounds r (List.mem_cons_self _ _)
        exact (apply_status_update_facts acc.sheet r.row_number "Pending" none hb.1 hb.2).1
      · simp only [if_neg hs]
    · rw [ih (Manager.check_step d acc q) hpw.2
        (fun b hb => by
          rw [check_step_sheet_length]
          exact hbounds b (List.mem_cons_of_mem _ hb)) r hr]
      by_cases hs : Manager.send_request_for_review (d r.row_number) r
      · rw [if_pos hs, if_pos hs]
      · rw [if_neg hs, if_neg hs]
        exact check_step_cell_untouched d acc q r.row_number 15 (hpw.1 r hr)

/-- C3 counterexample: one undecided row, two configured reviewers, delivery
succeeds for the first and fails for the second (partial failure). The claim
says the row is still marked pending; in fact the sweep leaves its status cell
untouched (`""`) and counts the dispatch as failed. -/
theorem C3_claim_counterexample :
    getCell (Manager.check_command (fun _ => [true, false]) [[""], ["x"]]).sheet 2 15
        ≠ "Pending" ∧
    (Manager.check_command (fun _ => [true, false]) [[""], ["x"]]).failed_count = 1 := by
  decide

/-- C3 amended: in the review-dispatch sweep a selected undecided row is marked
`"Pending"` in the store only when delivery succeeded to EVERY configured
reviewer identity; any failed delivery — partial or total — leaves the row's
status cell untouched (and is reported in the failure count). -/
theorem C3_partial_failure_blocks_marking (deliveries : Nat → List Bool) (s : Sheet)
    (r : Record) (hr : r ∈ Manager.get_pending_records s) :
    getCell (Manager.check_command deliveries s).sheet r.row_number 15 =
      if (deliveries r.row_number).all id then "Pending"
      else getCell s r.row_number 15 := by
  have hb := get_pending_records_bounds s r hr
  have h := check_fold_row_status deliveries (Manager.get_pending_records s) ⟨s, 0, 0⟩
    (get_pending_records_pairwise s)
    (fun b hbm => by
      have := get_pending_records_bounds s b hbm
      exact ⟨by omega, this.2⟩) r hr
  unfold Manager.check_command
  rw [h]
  unfold Manager.send_request_for_review
  rw [if_neg (show ¬ r.row_number = 0 by omega)]

/-- Witness for the amended C3: with the counterexample's input, the selected
row (number 2, partial delivery failure) keeps its empty status. -/
theorem C3_partial_failure_blocks_marking_witness :
    getCell (Manager.check_command (fun _ => [true, false]) [[""], ["x"]]).sheet 2 15
      = "" := by
  have hmem : (⟨HEADERS.map (fun p => (p.1, pyStrip (["x"].getD (p.2 - 1) ""))), 2⟩ : Record)
      ∈ Manager.get_pending_records [[""], ["x"]] := by decide
  have h := C3_partial_failure_blocks_marking (fun _ => [true, false]) [[""], ["x"]]
    ⟨HEADERS.map (fun p => (p.1, pyStrip (["x"].getD (p.2 - 1) ""))), 2⟩ hmem
  rw [show ((⟨HEADERS.map (fun p => (p.1, pyStrip (["x"].getD (p.2 - 1) ""))), 2⟩ : Record
    ).row_number) = 2 from rfl] at h
  rw [h]
  decide

/-- C4 counterexample: the claim says NO adapter operation propagates an
exception past the adapter. The manager-side status write does: its
except-branch re-raises, so with the underlying `batch_update` failing the
call surfaces the error to its caller. -/
theorem C4_claim_counterexample :
    Manager.update_status_and_group_link [true] [[""], ["x"]] 2 "Accepted" none =
      Except.error () := rfl

/-- C4 amended: every read operation of either adapter — the row reads, the
pending-records scan, and both identity lookups — and the client-side field
write swallow a failing underlying store call, returning the empty or absent
result (`None`, `{}`, `[]`, or the unchanged original record) with the cache
untouched, and never raise; no operation retries (no result below depends on
the outcomes `rest` of any further hypothetical store calls). The one
exception is the manager-side `update_status_and_group_link`, which performs
no retry either but re-raises the failure to its caller. For the identity
lookups the error path is reached exactly when the cache misses — a cache hit
returns the cached record before any store I/O — and both cases are
characterized below with no hypothesis. -/
theorem C4_error_swallowing (rest : List Bool) (s : Sheet) (row : Nat)
    (cache : Client.Cache) (record : Record) (fields : List (String × String))
    (tg username : String) (status : String) (glink : Option String) :
    Client.get_record_by_row_io (true :: rest) s row = Except.ok none ∧
    Client.update_user_fields_io (true :: rest) s cache record fields tg =
      Except.ok (s, record, cache) ∧
    Client.find_user_by_telegram_id_io (true :: rest) s cache tg =
      Except.ok (match Client.get_from_cache cache (pyStrip tg) with
        | some cached => (some cached, cache)
        | none => (none, cache)) ∧
    Client.find_user_by_username_io (true :: rest) s cache username tg =
      Except.ok (if username = "" then (none, cache)
        else match Client.get_from_cache cache tg with
          | some cached => (some cached, cache)
          | none => (none, cache)) ∧
    Manager.get_record_by_row_io (true :: rest) s row = Except.ok none ∧
    Manager.get_pending_records_io (true :: rest) s = Except.ok [] ∧
    Manager.update_status_and_group_link (true :: rest) s row status glink =
      Except.error () ∧
    Manager.update_status_and_group_link (false :: rest) s row status glink =
      Except.ok (Manager.apply_status_update s row status glink) := by
  refine ⟨rfl, rfl, ?_, ?_, rfl, rfl, rfl, rfl⟩
  · unfold Client.find_user_by_telegram_id_io
    simp only []
    cases Client.get_from_cache cache (pyStrip tg) <;> rfl
  · unfold Client.find_user_by_username_io
    by_cases hu : username = ""
    · rw [if_pos hu, if_pos hu]
    · rw [if_neg hu, if_neg hu]
      simp only []
      cases Client.get_from_cache cache tg <;> rfl

theorem record_get_set_self (r : Record) (h v : String) :
    (Record.set r h v).get h = v := by
  unfold Record.get Record.set
  rw [dictGet_dictSet_self]
  rfl

theorem record_get_set_ne (r : Record) (h h' v : String) (hne : h' ≠ h) :
    (Record.set r h v).get h' = r.get h' := by
  unfold Record.get Record.set
  rw [dictGet_dictSet_ne _ _ _ _ hne]

theorem record_row_number_set (r : Record) (h v : String) :
    (Record.set r h v).row_number = r.row_number := rfl

theorem pyStrip_lower_Accepted : pyLower (pyStrip "Accepted") = "accepted" := by decide

/-- C5: after the reviewer pipeline writes `status = "Accepted"` and
`group_link = L` to a row, the applicant's status check on a stale cached
record for that row (its cached status not yet terminal) re-reads the two
cells from the store, overwrites the in-memory record and the cache with the
fresh values, and renders the acceptance reply carrying L. -/
theorem C5_status_propagation (team_link L : String) (s : Sheet)
    (cache : Client.Cache) (tg : String) (record : Record)
    (h1 : 1 ≤ record.row_number) (h2 : record.row_number ≤ s.length)
    (hL : L ≠ "") (hLs : pyStrip L = L)
    (hst1 : pyLower (pyStrip (record.get "Status")) ≠ "accepted")
    (hst2 : pyLower (pyStrip (record.get "Status")) ≠ "rejected") :
    Client.show_status team_link
        (Manager.apply_status_update s record.row_number "Accepted" (some L))
        cache tg record =
      ⟨Client.Reply.acceptedMsg (record.get "Name") (record.get "Committee") L team_link,
       (record.set "Status" "Accepted").set "Group_Link" L,
       Client.set_cache cache tg ((record.set "Status" "Accepted").set "Group_Link" L)⟩ ∧
    ((record.set "Status" "Accepted").set "Group_Link" L).get "Status" = "Accepted" ∧
    ((record.set "Status" "Accepted").set "Group_Link" L).get "Group_Link" = L := by
  have hrow : record.row_number - 1 < s.length := by omega
  have hgetS : getCell (Manager.apply_status_update s record.row_number "Accepted" (some L))
      record.row_number 15 = "Accepted" :=
    (apply_status_update_facts s record.row_number "Accepted" (some L) h1 h2).1
  have hgetL : getCell (Manager.apply_status_update s record.row_number "Accepted" (some L))
      record.row_number 10 = L := by
    unfold Manager.apply_status_update
    rw [headerCol_Status, headerCol_Group_Link, if_neg (by simpa using hL)]
    exact getCell_setCell_self _ _ 10 L (by rw [length_setCell]; exact hrow) (by omega)
  have hr1S : ((record.set "Status" "Accepted").set "Group_Link" L).get "Status" =
      "Accepted" := by
    rw [record_get_set_ne _ _ _ _ (by decide), record_get_set_self]
  have hr1L : ((record.set "Status" "Accepted").set "Group_Link" L).get "Group_Link" = L :=
    record_get_set_self _ _ _
  refine ⟨?_, hr1S, hr1L⟩
  unfold Client.show_status
  rw [if_neg hst1, if_neg hst2, headerCol_Status, headerCol_Group_Link]
  simp only [hgetS, hgetL, pyStrip_lower_Accepted]
  rw [if_pos (show ("accepted" : String) ≠ pyLower (pyStrip (record.get "Status")) from
    fun he => hst1 he.symm)]
  simp only [hr1S, pyStrip_lower_Accepted]
  simp only [if_true]
  unfold Client.send_accepted
  rw [hr1L, hLs,
    record_get_set_ne _ _ "Name" _ (by decide), record_get_set_ne _ _ "Name" _ (by decide),
    record_get_set_ne _ _ "Committee" _ (by decide),
    record_get_set_ne _ _ "Committee" _ (by decide)]

/-- Witness for C5 at a concrete input: row 2 cached as pending, the store now
holds Accepted with link "L"; the check renders acceptance with "L" and
refreshes cache and record. -/
theorem C5_status_propagation_witness :
    Client.show_status "T"
        (Manager.apply_status_update [[""], ["x"]] 2 "Accepted" (some "L"))
        ⟨true, 10, []⟩ "5" ⟨[("Status", "Pending"), ("Name", "A"), ("Committee", "C")], 2⟩ =
      ⟨Client.Reply.acceptedMsg "A" "C" "L" "T",
       Record.set (Record.set ⟨[("Status", "Pending"), ("Name", "A"), ("Committee", "C")], 2⟩
         "Status" "Accepted") "Group_Link" "L",
       Client.set_cache ⟨true, 10, []⟩ "5"
         (Record.set (Record.set ⟨[("Status", "Pending"), ("Name", "A"), ("Committee", "C")], 2⟩
           "Status" "Accepted") "Group_Link" "L")⟩ := by
  have h := C5_status_propagation "T" "L" [[""], ["x"]] ⟨true, 10, []⟩ "5"
    ⟨[("Status", "Pending"), ("Name", "A"), ("Committee", "C")], 2⟩
    (by decide) (by decide) (by decide) (by decide) (by decide) (by decide)
  rw [h.1]
  decide

theorem client_fields_get_logged_in (s : Sheet) (row : Nat) :
    (Client.get_record_by_row s row).get "Logged_In" = getCell s row 16 := rfl

/-- C9: password hashing is deterministic; in the awaiting-password state a
mismatching digest leaves the conversation awaiting the password with no store
or cache change; a matching digest writes `Logged_In = "Yes"` to the row's
cell — so a fresh read of the row reports the user logged in — and proceeds to
the status display. -/
theorem C9_password_check (h : String → String) (team_link pw tg x : String)
    (s : Sheet) (cache : Client.Cache) (record : Record) :
    (Client.hash_password h x = Client.hash_password h x) ∧
    (h (pyStrip pw) ≠ h (pyStrip (record.get "Password")) →
      Client.handle_password h team_link pw s cache (some record) tg =
        ⟨Client.PasswordStep.wrongPassword, s, cache, some record⟩) ∧
    (h (pyStrip pw) = h (pyStrip (record.get "Password")) →
      1 ≤ record.row_number → record.row_number ≤ s.length →
      (∃ rep, (Client.handle_password h team_link pw s cache (some record) tg).step =
        Client.PasswordStep.statusShown rep) ∧
      (Client.handle_password h team_link pw s cache (some record) tg).sheet =
        setCell s record.row_number 16 "Yes" ∧
      getCell (Client.handle_password h team_link pw s cache (some record) tg).sheet
        record.row_number 16 = "Yes" ∧
      Client.is_user_logged_in (Client.get_record_by_row
        (Client.handle_password h team_link pw s cache (some record) tg).sheet
        record.row_number) = true) := by
  refine ⟨rfl, ?_, ?_⟩
  · intro hne
    unfold Client.handle_password Client.hash_password
    simp only []
    rw [if_pos (fun he => hne he.symm)]
  · intro heq hb1 hb2
    have heval : Client.handle_password h team_link pw s cache (some record) tg =
        ⟨Client.PasswordStep.statusShown (Client.show_status team_link
            (setCell s record.row_number 16 "Yes")
            (Client.set_cache cache tg (record.set "Logged_In" "Yes")) tg
            (record.set "Logged_In" "Yes")).reply,
          setCell s record.row_number 16 "Yes",
          (Client.show_status team_link (setCell s record.row_number 16 "Yes")
            (Client.set_cache cache tg (record.set "Logged_In" "Yes")) tg
            (record.set "Logged_In" "Yes")).cache,
          some (Client.show_status team_link (setCell s record.row_number 16 "Yes")
            (Client.set_cache cache tg (record.set "Logged_In" "Yes")) tg
            (record.set "Logged_In" "Yes")).user_record⟩ := by
      unfold Client.handle_password Client.hash_password Client.update_user_fields
      simp only [List.foldl_cons, List.foldl_nil, headerCol_Logged_In]
      rw [if_neg (fun hne => hne heq.symm)]
    have hcell : getCell (setCell s record.row_number 16 "Yes") record.row_number 16 =
        "Yes" := getCell_setCell_self s record.row_number 16 "Yes" (by omega) (by omega)
    refine ⟨⟨_, by rw [heval]⟩, by rw [heval], by rw [heval]; exact hcell, ?_⟩
    rw [heval]
    have hlg : (Client.get_record_by_row (setCell s record.row_number 16 "Yes")
        record.row_number).get "Logged_In" = "Yes" := by
      rw [client_fields_get_logged_in]
      exact hcell
    unfold Client.is_user_logged_in
    rw [hlg]
    decide

/-- Witness for C9 at concrete inputs: digest `x ++ "#"`, stored password
`"abc"`, row 2 of a two-row sheet; `"zzz"` is rejected with no change, `"abc"`
logs the user in persistently. -/
theorem C9_password_check_witness :
    Client.handle_password (fun x => x ++ "#") "T" "zzz" [[], []] ⟨true, 5, []⟩
        (some ⟨[("Password", "abc")], 2⟩) "9" =
      ⟨Client.PasswordStep.wrongPassword, [[], []], ⟨true, 5, []⟩,
        some ⟨[("Password", "abc")], 2⟩⟩ ∧
    getCell (Client.handle_password (fun x => x ++ "#") "T" "abc" [[], []] ⟨true, 5, []⟩
        (some ⟨[("Password", "abc")], 2⟩) "9").sheet 2 16 = "Yes" ∧
    Client.is_user_logged_in (Client.get_record_by_row
      (Client.handle_password (fun x => x ++ "#") "T" "abc" [[], []] ⟨true, 5, []⟩
        (some ⟨[("Password", "abc")], 2⟩) "9").sheet 2) = true := by
  have h := C9_password_check (fun x => x ++ "#") "T" "zzz" "9" "w" [[], []]
    ⟨true, 5, []⟩ ⟨[("Password", "abc")], 2⟩
  have h2 := C9_password_check (fun x => x ++ "#") "T" "abc" "9" "w" [[], []]
    ⟨true, 5, []⟩ ⟨[("Password", "abc")], 2⟩
  have hr := h2.2.2 (by decide) (by decide) (by decide)
  exact ⟨h.2.1 (by decide), hr.2.2.1, hr.2.2.2⟩

theorem scan_usernames_fst (s : Sheet) (cache : Client.Cache) (tg search : String) :
    ∀ (l : List String) (i : Nat),
      (Client.scan_usernames s cache tg search i l).1 = Client.claim_scan s search i l := by
  intro l
  induction l with
  | nil =>
    intro i
    rfl
  | cons u rest ih =>
    intro i
    rw [Client.scan_usernames, Client.claim_scan]
    by_cases hm : cleanUsername u = search
    · rw [if_pos hm, if_pos hm]
    · rw [if_neg hm, if_neg hm]
      exact ih (i + 1)

/-- C10 counterexample: no stored username cell of this sheet matches the query
`"bob"` after normalization, yet — because the per-process cache holds an entry
for the caller's telegram_id, which the claim's description omits — the lookup
returns that cached record instead of `none`. -/
theorem C10_claim_counterexample :
    (∀ u ∈ col_values [[], []] 11, cleanUsername u ≠ cleanUsername "bob") ∧
    (Client.find_user_by_username [[], []] ⟨true, 1000, [("tg_5", ⟨[("Name", "A")], 3⟩)]⟩
      "bob" "5").1 = some ⟨[("Name", "A")], 3⟩ := by
  exact ⟨by decide, by decide⟩

/-- C10 amended: with an empty username the lookup returns `none` without
scanning or touching the cache; when the cache holds NO entry for the caller's
telegram_id, the lookup behaves exactly as the claim describes — normalize the
query (strip, drop leading `@`, lowercase), scan data rows from row 2, return
the first row whose normalized stored username matches, else `none`. A cached
entry for the telegram_id preempts the scan and is returned as-is. -/
theorem C10_username_lookup_amended (s : Sheet) (cache : Client.Cache)
    (username tg : String) :
    Client.find_user_by_username s cache "" tg = (none, cache) ∧
    (Client.get_from_cache cache tg = none →
      (Client.find_user_by_username s cache username tg).1 =
        Client.find_user_by_username_claim s username) := by
  constructor
  · rfl
  · intro hmiss
    unfold Client.find_user_by_username Client.find_user_by_username_claim
    by_cases hu : username = ""
    · rw [if_pos hu, if_pos hu]
    · rw [if_neg hu, if_neg hu]
      simp only [hmiss]
      exact scan_usernames_fst s cache tg (cleanUsername username)
        ((col_values s 11).drop 1) 2

/-- Witness for the amended C10: a sheet whose row 2 stores username `"@Bob "`,
an empty cache, query `"bob"`: the code lookup agrees with the claim's scan. -/
theorem C10_username_lookup_amended_witness :
    (Client.find_user_by_username
        [[], ["", "", "", "", "", "", "", "", "", "", "@Bob "]] ⟨true, 5, []⟩
        "bob" "9").1 =
      Client.find_user_by_username_claim
        [[], ["", "", "", "", "", "", "", "", "", "", "@Bob "]] "bob" := by
  exact (C10_username_lookup_amended
    [[], ["", "", "", "", "", "", "", "", "", "", "@Bob "]] ⟨true, 5, []⟩
    "bob" "9").2 (by decide)

end Bots
